import Mathlib

/-!
# Scheduler facade of the MAC scheduler (`lib/mac/sched/sched.cc`)

The facade `sched` owns the list of cells, the UE database and the pending-event
manager.  Its five member functions are embedded below as pure functions on an
explicit scheduler state.  The classes the facade calls into (`cell_sched`, the
event manager behind `pending_events`, the random-access scheduler `ra_sch`) are
not part of the available sources: they enter the embedding as a record of
operations (`sched_collaborators`), so every statement proved for an arbitrary
record holds for whatever those classes do.  A second, concrete record
(`spec_model.collaborators`) follows the wording of the specification and is used
where a statement needs the behaviour of those classes.

Each embedded function also reports the list of collaborator calls it made, in
program order, so that "what was run, and in which order" can be stated.
-/

namespace srsgnb

/-- Index of a cell inside the scheduler (`du_cell_index_t`). -/
abbrev du_cell_index_t := Nat

/-- How a call into the facade ends.
* `ok a`: the function returned `a`;
* `sanity_check_failed msg`: an `srsran_sanity_check` written in `sched.cc` failed
  (a checked, fatal contract violation);
* `cell_rejected msg`: `cell_sched::slot_indication` aborted with a fatal contract
  violation of its own;
* `events_rejected msg`: `pending_events.handle` aborted with a fatal contract
  violation of its own;
* `out_of_bounds`: `cells[cell_index]` was evaluated with `cell_index` outside the
  cell list without any preceding check (undefined behaviour in the program). -/
inductive outcome (α : Type) where
  | ok (a : α)
  | sanity_check_failed (msg : String)
  | cell_rejected (msg : String)
  | events_rejected (msg : String)
  | out_of_bounds
  deriving DecidableEq, Repr

/-- An outcome is a fatal contract violation when it is a checked abort. -/
def outcome.is_fatal {α : Type} : outcome α → Bool
  | .sanity_check_failed _ => true
  | .cell_rejected _ => true
  | .events_rejected _ => true
  | _ => false

/-- One call from the facade into a collaborator, as it appears in `sched.cc`. -/
inductive call (Slot : Type) where
  /-- The call `pending_events.handle(msg)` with a cell configuration request. -/
  | events_handle_cell_configuration_request
  /-- The call `pending_events.handle(msg)` with a RACH indication. -/
  | events_handle_rach_indication
  /-- The call `cell->slot_indication(sl_tx)`: step 1, reset of the cell resource grid. -/
  | cell_slot_indication (cell_index : du_cell_index_t) (sl : Slot)
  /-- The call `pending_events.run(sl_tx, cell_index)`: step 2, pending events. -/
  | events_run (sl : Slot) (cell_index : du_cell_index_t)
  /-- The call `cell->ra_sch.run_slot(res_alloc)`: step 4, RARs and Msg3. -/
  | ra_sch_run_slot (cell_index : du_cell_index_t)
  /-- The call `cells[cell_index]->get_dl_sched(sl)`. -/
  | cell_get_dl_sched (cell_index : du_cell_index_t) (sl : Slot)
  /-- The call `cells[cell_index]->get_ul_sched(sl)`. -/
  | cell_get_ul_sched (cell_index : du_cell_index_t) (sl : Slot)
  deriving DecidableEq, Repr

/-- A call belongs to the per-slot pipeline when it is one of the three steps
`sched::slot_indication` performs. -/
def call.is_pipeline_step {Slot : Type} : call Slot → Bool
  | .cell_slot_indication _ _ => true
  | .events_run _ _ => true
  | .ra_sch_run_slot _ => true
  | _ => false

/-- The operations of the classes `sched.cc` calls into.  Their sources are absent,
so they are parameters of the embedding.

* `events_handle_cfg`, `events_handle_rach`: the two overloads of
  `pending_events.handle(msg)`; they act on the event manager only.  The overload
  for a RACH indication may read the cell list the event manager refers to and
  may abort.
* `events_run`: `pending_events.run(sl_tx, cell_index)`.  The event manager was
  constructed as `pending_events(ue_db, cells)`, so this operation may read and
  update the UE database and the cell list.
* `cell_slot_indication`: `cell->slot_indication(sl_tx)`; it may abort.
* `ra_sch_run_slot`: `cell->ra_sch.run_slot(res_alloc)` where `res_alloc` is built
  from `cell->res_grid_pool`; it acts on the addressed cell.
* `cell_get_dl_sched`, `cell_get_ul_sched`: the two result getters of a cell. -/
structure sched_collaborators (Slot Cell Events UeDb CfgMsg RachMsg DlRes UlRes : Type) where
  events_handle_cfg : CfgMsg → Events → Events
  events_handle_rach : RachMsg → List Cell → Events → Except String Events
  events_run : Slot → du_cell_index_t → Events → UeDb → List Cell → Events × UeDb × List Cell
  cell_slot_indication : Slot → Cell → Except String Cell
  ra_sch_run_slot : Cell → Cell
  cell_get_dl_sched : Slot → Cell → DlRes
  cell_get_ul_sched : Slot → Cell → UlRes

/-- The data members of `sched` that the member functions touch
(`mac_notifier` and `logger` are never used by them). -/
structure sched (Cell Events UeDb : Type) where
  ue_db : UeDb
  cells : List Cell
  pending_events : Events

/-- What one call of a member function did: the collaborator calls it made in
program order, the scheduler state it left, and how it ended. -/
structure call_result (Slot Cell Events UeDb α : Type) where
  calls : List (call Slot)
  state : sched Cell Events UeDb
  result : outcome α

/-- Modelled from the spec: the macro `srsran_sanity_check(condition, msg)`
(definition absent).  A failed check is a fatal contract violation: it aborts
with the diagnostic `msg`; a check that holds has no effect. -/
def srsran_sanity_check (condition : Bool) (msg : String) : Except String Unit :=
  if condition then Except.ok () else Except.error msg

section facade

variable {Slot Cell Events UeDb CfgMsg RachMsg DlRes UlRes : Type}

/-- Embeds `bool sched::handle_cell_configuration_request(const cell_configuration_request_message& msg)`:
```
  pending_events.handle(msg);
  return true;
``` -/
def sched.handle_cell_configuration_request
    (d : sched_collaborators Slot Cell Events UeDb CfgMsg RachMsg DlRes UlRes)
    (msg : CfgMsg) (s : sched Cell Events UeDb) : call_result Slot Cell Events UeDb Bool :=
  { calls := [call.events_handle_cell_configuration_request]
    state := { s with pending_events := d.events_handle_cfg msg s.pending_events }
    result := outcome.ok true }

/-- Embeds `void sched::handle_rach_indication(const rach_indication_message& msg)`:
```
  pending_events.handle(msg);
```
The function has no statement of its own besides the call: it ends as the call
ends. -/
def sched.handle_rach_indication
    (d : sched_collaborators Slot Cell Events UeDb CfgMsg RachMsg DlRes UlRes)
    (msg : RachMsg) (s : sched Cell Events UeDb) : call_result Slot Cell Events UeDb Unit :=
  match d.events_handle_rach msg s.cells s.pending_events with
  | .error m =>
    { calls := [call.events_handle_rach_indication]
      state := s
      result := outcome.events_rejected m }
  | .ok e =>
    { calls := [call.events_handle_rach_indication]
      state := { s with pending_events := e }
      result := outcome.ok () }

/-- Embeds `void sched::slot_indication(slot_point sl_tx, du_cell_index_t cell_index)`:
```
  srsran_sanity_check(cell_index < cells.size(), "Invalid cell index");
  auto& cell = cells[cell_index];
  cell->slot_indication(sl_tx);                       // 1. reset cell resource grid state
  pending_events.run(sl_tx, cell_index);              // 2. process pending events
  cell_resource_allocator res_alloc{cell->res_grid_pool};
  cell->ra_sch.run_slot(res_alloc);                   // 4. schedule RARs and Msg3
```
`cell` is a reference into the cell list, so after `pending_events.run` it
denotes the entry at `cell_index` of the list that call left. -/
def sched.slot_indication
    (d : sched_collaborators Slot Cell Events UeDb CfgMsg RachMsg DlRes UlRes)
    (sl_tx : Slot) (cell_index : du_cell_index_t) (s : sched Cell Events UeDb) :
    call_result Slot Cell Events UeDb Unit :=
  match srsran_sanity_check (decide (cell_index < s.cells.length)) "Invalid cell index" with
  | .error msg => { calls := [], state := s, result := outcome.sanity_check_failed msg }
  | .ok _ =>
      match s.cells[cell_index]? with
      | none => { calls := [], state := s, result := outcome.out_of_bounds }
      | some cell =>
        match d.cell_slot_indication sl_tx cell with
        | .error msg =>
          { calls := [call.cell_slot_indication cell_index sl_tx]
            state := s
            result := outcome.cell_rejected msg }
        | .ok cell1 =>
          let r := d.events_run sl_tx cell_index s.pending_events s.ue_db
                     (s.cells.set cell_index cell1)
          match r.2.2[cell_index]? with
          | none =>
            { calls := [call.cell_slot_indication cell_index sl_tx,
                        call.events_run sl_tx cell_index]
              state := { ue_db := r.2.1, cells := r.2.2, pending_events := r.1 }
              result := outcome.out_of_bounds }
          | some cell2 =>
            { calls := [call.cell_slot_indication cell_index sl_tx,
                        call.events_run sl_tx cell_index,
                        call.ra_sch_run_slot cell_index]
              state := { ue_db := r.2.1
                         cells := r.2.2.set cell_index (d.ra_sch_run_slot cell2)
                         pending_events := r.1 }
              result := outcome.ok () }

/-- Embeds `const dl_sched_result* sched::get_dl_sched(slot_point sl, du_cell_index_t cell_index)`:
```
  slot_indication(sl, cell_index);
  return cells[cell_index]->get_dl_sched(sl);
```
The returned pointer is represented by the result it points to at the return. -/
def sched.get_dl_sched
    (d : sched_collaborators Slot Cell Events UeDb CfgMsg RachMsg DlRes UlRes)
    (sl : Slot) (cell_index : du_cell_index_t) (s : sched Cell Events UeDb) :
    call_result Slot Cell Events UeDb DlRes :=
  let r := sched.slot_indication d sl cell_index s
  match r.result with
  | .ok _ =>
    match r.state.cells[cell_index]? with
    | some cell =>
      { calls := r.calls ++ [call.cell_get_dl_sched cell_index sl]
        state := r.state
        result := outcome.ok (d.cell_get_dl_sched sl cell) }
    | none => { calls := r.calls, state := r.state, result := outcome.out_of_bounds }
  | .sanity_check_failed msg =>
    { calls := r.calls, state := r.state, result := outcome.sanity_check_failed msg }
  | .cell_rejected msg =>
    { calls := r.calls, state := r.state, result := outcome.cell_rejected msg }
  | .events_rejected msg =>
    { calls := r.calls, state := r.state, result := outcome.events_rejected msg }
  | .out_of_bounds => { calls := r.calls, state := r.state, result := outcome.out_of_bounds }

/-- Embeds `const ul_sched_result* sched::get_ul_sched(slot_point sl, du_cell_index_t cell_index)`:
```
  // TODO
  return cells[cell_index]->get_ul_sched(sl);
```
There is no check of `cell_index` in front of the indexing. -/
def sched.get_ul_sched
    (d : sched_collaborators Slot Cell Events UeDb CfgMsg RachMsg DlRes UlRes)
    (sl : Slot) (cell_index : du_cell_index_t) (s : sched Cell Events UeDb) :
    call_result Slot Cell Events UeDb UlRes :=
  match s.cells[cell_index]? with
  | some cell =>
    { calls := [call.cell_get_ul_sched cell_index sl]
      state := s
      result := outcome.ok (d.cell_get_ul_sched sl cell) }
  | none => { calls := [], state := s, result := outcome.out_of_bounds }

/-- The event manager never removes a cell from the cell list when it runs
(cells are created at configuration time and destroyed only at teardown). -/
def sched_collaborators.keeps_cells
    (d : sched_collaborators Slot Cell Events UeDb CfgMsg RachMsg DlRes UlRes) : Prop :=
  ∀ (sl : Slot) (c : du_cell_index_t) (e : Events) (u : UeDb) (cs : List Cell),
    cs.length ≤ (d.events_run sl c e u cs).2.2.length

end facade

/-! ## Collaborators modelled from the specification -/

namespace spec_model

/-- Modelled from the spec: the type `slot_point` (declaration absent).  A slot is
an orderable identifier of one transmission interval; it is represented by its
unwrapped count, so that "strictly after" is the order of the naturals. -/
abbrev slot_point := Nat

/-- Modelled from the spec: `cell_configuration_request_message` (declaration
absent); the request carries the index of the cell it addresses. -/
structure cell_configuration_request_message where
  cell_index : du_cell_index_t
  deriving DecidableEq, Repr

/-- Modelled from the spec: `rach_indication_message` (declaration absent); the
indication carries the target cell index, the slot in which the preamble was
detected and the preamble identity. -/
structure rach_indication_message where
  cell_index : du_cell_index_t
  slot_rx : slot_point
  preamble_id : Nat
  deriving DecidableEq, Repr

/-- Modelled from the spec: a Pending Event, a tagged variant carrying the target
cell index and, if applicable, a target slot.  Only the two variants that
`sched.cc` can submit are present. -/
inductive pending_event where
  | cell_configuration (msg : cell_configuration_request_message)
  | rach_indication (msg : rach_indication_message)
  deriving DecidableEq, Repr

/-- Modelled from the spec: the target cell index a Pending Event carries. -/
def pending_event.cell_index : pending_event → du_cell_index_t
  | .cell_configuration msg => msg.cell_index
  | .rach_indication msg => msg.cell_index

/-- Modelled from the spec: the target slot a Pending Event carries, if applicable. -/
def pending_event.target_slot : pending_event → Option slot_point
  | .cell_configuration _ => none
  | .rach_indication msg => some msg.slot_rx

/-- Modelled from the spec: the events the pipeline of `(sl, c)` drains are those
queued for cell `c` whose target slot is not after `sl`. -/
def pending_event.due (sl : slot_point) (c : du_cell_index_t) (e : pending_event) : Bool :=
  e.cell_index == c &&
    (match e.target_slot with
     | none => true
     | some t => decide (t ≤ sl))

/-- Modelled from the spec: the Pending-Event Queue behind `pending_events` (class
absent): a FIFO queue of submitted events, and the events that were dropped or
rejected with a recorded diagnostic. -/
structure event_manager where
  queue : List pending_event
  diagnostics : List pending_event
  deriving DecidableEq, Repr

/-- Modelled from the spec: `pending_events.handle(msg)` (absent) enqueues one
Pending Event at the back of the queue and touches nothing else. -/
def event_manager.handle (e : pending_event) (em : event_manager) : event_manager :=
  { em with queue := em.queue ++ [e] }

/-- Modelled from the spec: `pending_events.handle(msg)` for a random-access
indication (absent).  The target cell index is validated against the cell list:
an index out of range is a fatal contract violation and nothing is enqueued;
otherwise one Pending Event is enqueued. -/
def event_manager.handle_rach {Cell : Type} (msg : rach_indication_message)
    (cells : List Cell) (em : event_manager) : Except String event_manager :=
  if msg.cell_index < cells.length then Except.ok (em.handle (pending_event.rach_indication msg))
  else Except.error "Invalid cell index"

/-- Modelled from the spec: a region of the Resource Grid, a block of time units
and frequency units of one slot. -/
structure grid_region where
  time_start : Nat
  time_len : Nat
  freq_start : Nat
  freq_len : Nat
  deriving DecidableEq, Repr

/-- Modelled from the spec: two regions overlap when they overlap in both time and
frequency. -/
def grid_region.overlaps (a b : grid_region) : Bool :=
  decide (a.time_start < b.time_start + b.time_len) &&
  decide (b.time_start < a.time_start + a.time_len) &&
  decide (a.freq_start < b.freq_start + b.freq_len) &&
  decide (b.freq_start < a.freq_start + a.freq_len)

/-- Modelled from the spec: a Grant references a random-access procedure (by its
preamble identity) and a resource-grid region. -/
structure grant where
  owner : Nat
  region : grid_region
  deriving DecidableEq, Repr

/-- Modelled from the spec: the Resource Grid of the current slot of a cell, given
by the grants committed in it for downlink and for uplink. -/
structure resource_grid where
  dl : List grant
  ul : List grant
  deriving DecidableEq, Repr

/-- Modelled from the spec: the all-free Resource Grid. -/
def resource_grid.free : resource_grid := { dl := [], ul := [] }

/-- Modelled from the spec: `allocate` on the downlink part of a grid.  It fails
without mutation if the region overlaps an existing commitment; on success it
commits the grant. -/
def resource_grid.allocate_dl (g : resource_grid) (gr : grant) : Bool × resource_grid :=
  if g.dl.any (fun x => x.region.overlaps gr.region) then (false, g)
  else (true, { g with dl := g.dl ++ [gr] })

/-- Modelled from the spec: `allocate` on the uplink part of a grid, with the same
contract as on the downlink part. -/
def resource_grid.allocate_ul (g : resource_grid) (gr : grant) : Bool × resource_grid :=
  if g.ul.any (fun x => x.region.overlaps gr.region) then (false, g)
  else (true, { g with ul := g.ul ++ [gr] })

/-- Modelled from the spec: a component that needs a downlink region asks for the
configured candidate regions in turn, each through `allocate`, until one is
committed; it fails, with the grid unchanged, when every candidate is
unavailable. -/
def resource_grid.allocate_dl_first (g : resource_grid) (owner : Nat) :
    List grid_region → Bool × resource_grid
  | [] => (false, g)
  | r :: rs =>
    if (g.allocate_dl { owner := owner, region := r }).1 then
      g.allocate_dl { owner := owner, region := r }
    else resource_grid.allocate_dl_first g owner rs

/-- Modelled from the spec: the same request on the uplink part of the grid. -/
def resource_grid.allocate_ul_first (g : resource_grid) (owner : Nat) :
    List grid_region → Bool × resource_grid
  | [] => (false, g)
  | r :: rs =>
    if (g.allocate_ul { owner := owner, region := r }).1 then
      g.allocate_ul { owner := owner, region := r }
    else resource_grid.allocate_ul_first g owner rs

/-- No two grants of the list overlap in both time and frequency. -/
def grants_disjoint (l : List grant) : Prop :=
  l.Pairwise (fun a b => a.region.overlaps b.region = false)

/-- Modelled from the spec: the states of a random-access attempt. -/
inductive ra_state where
  | DETECTED
  | RESPONSE_SCHEDULED
  | AWAITING_CONTENTION_RESOLUTION
  | RESOLVED
  | EXPIRED
  deriving DecidableEq, Repr

/-- Modelled from the spec: Random-Access Procedure state. -/
structure ra_attempt where
  preamble_id : Nat
  detected_slot : slot_point
  state : ra_state
  deriving DecidableEq, Repr

/-- Modelled from the spec: the Random-Access Scheduler of a cell (class absent):
the configured response window in slots, the candidate grid regions of a
response grant (downlink) and of the follow-up allocation (uplink), which bound
the capacity of a slot, and the outstanding attempts, earliest detected first. -/
structure ra_scheduler where
  response_window : Nat
  rar_regions : List grid_region
  msg3_regions : List grid_region
  attempts : List ra_attempt
  deriving DecidableEq, Repr

/-- Modelled from the spec: admission of an attempt keeps the attempts ordered by
detection slot (the earliest-detected attempt is served first). -/
def ra_admit (a : ra_attempt) : List ra_attempt → List ra_attempt
  | [] => [a]
  | b :: bs => if a.detected_slot < b.detected_slot then a :: b :: bs else b :: ra_admit a bs

/-- Modelled from the spec: the Random-Access Scheduler handles one attempt in
slot `sl`.  A `DETECTED` attempt whose response window `(S, S + W]` has elapsed
becomes `EXPIRED`; inside the window a response grant is allocated and the
attempt becomes `RESPONSE_SCHEDULED`, or, if no region is available, it remains
in its state to be retried on the next slot.  A `RESPONSE_SCHEDULED` attempt gets
its follow-up allocation placed in the uplink grid and becomes
`AWAITING_CONTENTION_RESOLUTION`, or remains in its state if no region is
available.  Completion and the contention-resolution timeout need inputs that
no entry point of `sched.cc` carries; the other states are left alone. -/
def ra_step (sl : slot_point) (cfg : ra_scheduler)
    (acc : resource_grid × List ra_attempt) (a : ra_attempt) :
    resource_grid × List ra_attempt :=
  match a.state with
  | .DETECTED =>
    if a.detected_slot + cfg.response_window < sl then
      (acc.1, acc.2 ++ [{ a with state := ra_state.EXPIRED }])
    else if a.detected_slot < sl then
      let r := acc.1.allocate_dl_first a.preamble_id cfg.rar_regions
      if r.1 then (r.2, acc.2 ++ [{ a with state := ra_state.RESPONSE_SCHEDULED }])
      else (acc.1, acc.2 ++ [a])
    else (acc.1, acc.2 ++ [a])
  | .RESPONSE_SCHEDULED =>
    let r := acc.1.allocate_ul_first a.preamble_id cfg.msg3_regions
    if r.1 then (r.2, acc.2 ++ [{ a with state := ra_state.AWAITING_CONTENTION_RESOLUTION }])
    else (acc.1, acc.2 ++ [a])
  | _ => (acc.1, acc.2 ++ [a])

/-- Modelled from the spec: a Cell (class `cell_sched` absent) aggregates the
resource grid of its current slot and its Random-Access Scheduler; `last_slot` is
the slot it processed last, if any.  `applied` records the events applied to the
cell so far, in the order of their application; nothing else depends on it. -/
structure cell_sched where
  last_slot : Option slot_point
  res_grid : resource_grid
  ra_sch : ra_scheduler
  applied : List pending_event
  deriving DecidableEq, Repr

/-- Modelled from the spec: `cell_sched::slot_indication` (absent), the
slot-boundary reset.  An out-of-order or duplicate slot tick for the cell (a
slot that is not after the last slot processed) is a fatal contract violation;
otherwise the slot becomes current and its Resource Grid is reset to all-free. -/
def cell_sched.slot_indication (sl : slot_point) (c : cell_sched) : Except String cell_sched :=
  match c.last_slot with
  | some l =>
    if sl ≤ l then Except.error "Slot indication is not monotonic"
    else Except.ok { c with last_slot := some sl, res_grid := resource_grid.free }
  | none => Except.ok { c with last_slot := some sl, res_grid := resource_grid.free }

/-- Modelled from the spec: `ra_sched::run_slot` (absent) runs the Random-Access
Scheduler against the grid of the current slot, earliest-detected attempt first. -/
def cell_sched.ra_run_slot (c : cell_sched) : cell_sched :=
  match c.last_slot with
  | none => c
  | some sl =>
    let r := c.ra_sch.attempts.foldl (ra_step sl c.ra_sch) (c.res_grid, [])
    { c with res_grid := r.1, ra_sch := { c.ra_sch with attempts := r.2 } }

/-- Modelled from the spec: applying one drained event to the cell it addresses.
A random-access indication is admitted as a `DETECTED` attempt; a configuration
request for a cell that already exists is a duplicate and leaves the
configuration as it is.  The event is recorded as applied. -/
def cell_sched.apply_event (c : cell_sched) : pending_event → cell_sched
  | .cell_configuration msg =>
    { c with applied := c.applied ++ [pending_event.cell_configuration msg] }
  | .rach_indication msg =>
    let a : ra_attempt :=
      { preamble_id := msg.preamble_id, detected_slot := msg.slot_rx, state := ra_state.DETECTED }
    { c with ra_sch := { c.ra_sch with attempts := ra_admit a c.ra_sch.attempts }
             applied := c.applied ++ [pending_event.rach_indication msg] }

/-- Modelled from the spec: an event gets a recorded diagnostic when the pipeline
of `(sl, c)` runs over a list of `n` cells if it targets a cell that is not
configured, or if it is a drained configuration request (a duplicate). -/
def pending_event.diagnosed (sl : slot_point) (c : du_cell_index_t) (n : Nat)
    (e : pending_event) : Bool :=
  decide (n ≤ e.cell_index) ||
    (e.due sl c && (match e with
                    | .cell_configuration _ => true
                    | .rach_indication _ => false))

/-- Modelled from the spec: `pending_events.run(sl, cell_index)` (absent).  It
drains the events queued for the cell whose target slot is not after `sl` and
applies them to that cell in submission order; events for strictly future slots
and for other configured cells remain queued; events targeting a cell that is
not configured are dropped with a recorded diagnostic. -/
def event_manager.run (sl : slot_point) (c : du_cell_index_t) (em : event_manager)
    (u : Unit) (cells : List cell_sched) : event_manager × Unit × List cell_sched :=
  let em1 : event_manager :=
    { queue := em.queue.filter
        (fun e => !(e.due sl c) && decide (e.cell_index < cells.length))
      diagnostics := em.diagnostics ++ em.queue.filter (pending_event.diagnosed sl c cells.length) }
  match cells[c]? with
  | none => (em1, u, cells)
  | some cell =>
    (em1, u, cells.set c ((em.queue.filter (pending_event.due sl c)).foldl
      cell_sched.apply_event cell))

/-- Modelled from the spec: the downlink result of a cell for slot `sl`, the
downlink grants accumulated in the grid of that slot (`none` when the cell holds
no grid for `sl`). -/
def cell_sched.get_dl_sched (sl : slot_point) (c : cell_sched) : Option (List grant) :=
  if c.last_slot = some sl then some c.res_grid.dl else none

/-- Modelled from the spec: the uplink result of a cell for slot `sl`. -/
def cell_sched.get_ul_sched (sl : slot_point) (c : cell_sched) : Option (List grant) :=
  if c.last_slot = some sl then some c.res_grid.ul else none

/-- Modelled from the spec: the classes `sched.cc` calls into (event manager,
`cell_sched`, random-access scheduler), gathered as one record of collaborators. -/
def collaborators :
    sched_collaborators slot_point cell_sched event_manager Unit
      cell_configuration_request_message rach_indication_message
      (Option (List grant)) (Option (List grant)) :=
  { events_handle_cfg := fun msg em => em.handle (pending_event.cell_configuration msg)
    events_handle_rach := fun msg cells em => em.handle_rach msg cells
    events_run := event_manager.run
    cell_slot_indication := cell_sched.slot_indication
    ra_sch_run_slot := cell_sched.ra_run_slot
    cell_get_dl_sched := cell_sched.get_dl_sched
    cell_get_ul_sched := cell_sched.get_ul_sched }

/-- A cell that has not processed any slot: response window of four slots, one
response-grant region and one follow-up region per slot, no outstanding
attempt. -/
def fresh_cell : cell_sched :=
  { last_slot := none
    res_grid := resource_grid.free
    ra_sch := { response_window := 4
                rar_regions := [{ time_start := 0, time_len := 1, freq_start := 0, freq_len := 4 }]
                msg3_regions := [{ time_start := 2, time_len := 1, freq_start := 0, freq_len := 2 }]
                attempts := [] }
    applied := [] }

/-- A cell with room for several grants per slot: three candidate regions for
the response grant, of which the second overlaps the first, and two disjoint
candidate regions for the follow-up allocation. -/
def wide_cell : cell_sched :=
  { last_slot := none
    res_grid := resource_grid.free
    ra_sch := { response_window := 4
                rar_regions := [{ time_start := 0, time_len := 1, freq_start := 0, freq_len := 4 },
                                { time_start := 0, time_len := 1, freq_start := 2, freq_len := 4 },
                                { time_start := 0, time_len := 1, freq_start := 4, freq_len := 4 }]
                msg3_regions := [{ time_start := 2, time_len := 1, freq_start := 0, freq_len := 2 },
                                 { time_start := 2, time_len := 1, freq_start := 2, freq_len := 2 }]
                attempts := [] }
    applied := [] }

/-- A scheduler with the single cell `wide_cell` and an empty event queue. -/
def wide_cell_sched : sched cell_sched event_manager Unit :=
  { ue_db := (), cells := [wide_cell], pending_events := { queue := [], diagnostics := [] } }

/-- A scheduler with one configured cell (index 0) and an empty event queue. -/
def one_cell_sched : sched cell_sched event_manager Unit :=
  { ue_db := (), cells := [fresh_cell], pending_events := { queue := [], diagnostics := [] } }

/-- One call on the public interface of `sched`. -/
inductive facade_call where
  | handle_cell_configuration_request (msg : cell_configuration_request_message)
  | handle_rach_indication (msg : rach_indication_message)
  | get_dl_sched (sl : slot_point) (cell_index : du_cell_index_t)
  | get_ul_sched (sl : slot_point) (cell_index : du_cell_index_t)
  deriving DecidableEq, Repr

/-- The scheduler state one call on the public interface leaves. -/
def facade_call.state_after (s : sched cell_sched event_manager Unit) :
    facade_call → sched cell_sched event_manager Unit
  | .handle_cell_configuration_request msg =>
    (sched.handle_cell_configuration_request collaborators msg s).state
  | .handle_rach_indication msg => (sched.handle_rach_indication collaborators msg s).state
  | .get_dl_sched sl cell_index => (sched.get_dl_sched collaborators sl cell_index s).state
  | .get_ul_sched sl cell_index => (sched.get_ul_sched collaborators sl cell_index s).state

/-- The scheduler state a sequence of calls on the public interface leaves. -/
def state_after_calls (s : sched cell_sched event_manager Unit) (l : List facade_call) :
    sched cell_sched event_manager Unit :=
  l.foldl facade_call.state_after s

/-- Cell `c` exists in `s` and the last slot it processed is `bound` or later. -/
def processed_at_least (s : sched cell_sched event_manager Unit) (c : du_cell_index_t)
    (bound : slot_point) : Prop :=
  ∃ cell l, s.cells[c]? = some cell ∧ cell.last_slot = some l ∧ bound ≤ l

/-- The call on the public interface that submits a given event. -/
def facade_call.submit : pending_event → facade_call
  | .cell_configuration msg => facade_call.handle_cell_configuration_request msg
  | .rach_indication msg => facade_call.handle_rach_indication msg

/-- No attempt of the cell whose response window ended before slot `bound` is
still `DETECTED`. -/
def cell_sched.ra_settled (c : cell_sched) (bound : slot_point) : Prop :=
  ∀ a ∈ c.ra_sch.attempts,
    a.detected_slot + c.ra_sch.response_window < bound → a.state ≠ ra_state.DETECTED

end spec_model

end srsgnb

/-! # Strong types (`include/srsgnb/adt/strong_type.h`) -/

namespace srsgnb

/-- Embeds `strong_type<T, Tag, Properties...>` for an unsigned integral `T` of `w`
bits: the wrapped value `val`, kept modulo `2 ^ w` by the operators. -/
structure strong_type (w : Nat) where
  val : Nat
  deriving DecidableEq, Repr

/-- Embeds the accessor `value()` of a strong type. -/
def strong_type.value {w : Nat} (s : strong_type w) : Nat := s.val

namespace strong_arithmetic_with_underlying_type

/-- Embeds `operator+=(base_type& lhs, T rhs)`: `lhs.value() += rhs; return lhs;`. -/
def add_assign {w : Nat} (lhs : strong_type w) (rhs : Nat) : strong_type w :=
  { val := (lhs.value + rhs) % 2 ^ w }

/-- Embeds `operator*=(base_type& lhs, T rhs)`: `lhs.value() *= rhs; return lhs;`. -/
def mul_assign {w : Nat} (lhs : strong_type w) (rhs : Nat) : strong_type w :=
  { val := (lhs.value * rhs) % 2 ^ w }

/-- Embeds `operator+(base_type lhs, T rhs)`: `lhs += rhs; return lhs;`. -/
def add_strong_value {w : Nat} (lhs : strong_type w) (rhs : Nat) : strong_type w :=
  add_assign lhs rhs

/-- Embeds `operator+(T lhs, base_type rhs)`: `rhs += lhs; return rhs;`. -/
def add_value_strong {w : Nat} (lhs : Nat) (rhs : strong_type w) : strong_type w :=
  add_assign rhs lhs

/-- Embeds `operator*(base_type lhs, T rhs)`: `lhs *= rhs; return lhs;`. -/
def mul_strong_value {w : Nat} (lhs : strong_type w) (rhs : Nat) : strong_type w :=
  mul_assign lhs rhs

/-- Embeds `operator*(T lhs, base_type rhs)`, whose body in the source is
`rhs += lhs; return rhs;`. -/
def mul_value_strong {w : Nat} (lhs : Nat) (rhs : strong_type w) : strong_type w :=
  add_assign rhs lhs

end strong_arithmetic_with_underlying_type

end srsgnb

/-! # Lime radio (`lib/radio/lime`) and task redispatcher (`support/executors`) -/

namespace srsran

/-- The type `lime::Range` of the Lime suite (an external library): the bounds and
the step of a range.  Values of type `double` are taken as exact rationals. -/
structure Range where
  min : ℚ
  max : ℚ
  step : ℚ

/-- Embeds the macro `clip(val, range)`:
`std::max(range.min, std::min(range.max, val))`. -/
def clip (val : ℚ) (range : Range) : ℚ :=
  Max.max range.min (Min.min range.max val)

/-- Embeds `radio_lime_device_validate_freq_range(range, freq)`:
```
  double clipped_freq = clip(freq, range);
  return std::abs(clipped_freq - freq) < 1.0;
``` -/
def radio_lime_device_validate_freq_range (range : Range) (freq : ℚ) : Bool :=
  decide (abs (clip freq range - freq) < 1)

/-- The function `std::round`: nearest integer, halfway cases away from zero. -/
def std_round (x : ℚ) : Int :=
  if 0 ≤ x then ⌊x + 1 / 2⌋ else ⌈x - 1 / 2⌉

/-- The conversion `static_cast<uint64_t>` of a real value: truncation toward
zero, undefined (`none`) when the truncated value is not a `uint64_t`. -/
def static_cast_uint64 (x : ℚ) : Option Nat :=
  let t : Int := if 0 ≤ x then ⌊x⌋ else ⌈x⌉
  if 0 ≤ t ∧ t < 2 ^ 64 then some t.toNat else none

/-- The conversion of a `uint64_t` to `int64_t` (two's complement). -/
def to_int64 (n : Nat) : Int :=
  if n < 2 ^ 63 then (n : Int) else (n : Int) - 2 ^ 64

/-- Embeds `radio_lime_device_validate_gain_range(range, gain)`:
```
  int64_t clipped_gain = static_cast<uint64_t>(std::round(clip(gain, range) * 100));
  int64_t uint_gain    = static_cast<uint64_t>(gain * 100);
  return (clipped_gain == uint_gain);
```
The result is `none` when one of the casts is undefined. -/
def radio_lime_device_validate_gain_range (range : Range) (gain : ℚ) : Option Bool :=
  match static_cast_uint64 (std_round (clip gain range * 100)),
        static_cast_uint64 (gain * 100) with
  | some clipped_gain, some uint_gain => some (decide (to_int64 clipped_gain = to_int64 uint_gain))
  | _, _ => none

namespace radio_lime_tx_stream_fsm

/-- Embeds `enum class states`, the internal states of the Tx stream. -/
inductive states where
  | UNINITIALIZED
  | START_BURST
  | IN_BURST
  | END_OF_BURST
  | WAIT_END_OF_BURST
  | WAIT_STOP
  | STOPPED
  deriving DecidableEq, Repr

end radio_lime_tx_stream_fsm

/-- The data members of `radio_lime_tx_stream_fsm` (the mutex and the condition
variable protect concurrent access and carry no data). -/
structure radio_lime_tx_stream_fsm where
  state : radio_lime_tx_stream_fsm.states
  wait_eob_timeout : Nat
  deriving DecidableEq, Repr

/-- The fields of `lime::StreamMeta` (external library) that the state machine
writes or reads. -/
structure StreamMeta where
  timestamp : Nat
  waitForTimestamp : Bool
  flushPartialPacket : Bool
  deriving DecidableEq, Repr

/-- What `transmit_block` leaves: the returned flag, the metadata and the state
machine. -/
structure transmit_block_result where
  transmit : Bool
  metadata : StreamMeta
  fsm : radio_lime_tx_stream_fsm
  deriving DecidableEq, Repr

namespace radio_lime_tx_stream_fsm

/-- Embeds `init_successful()`: `state = states::START_BURST;`. -/
def init_successful (f : radio_lime_tx_stream_fsm) : radio_lime_tx_stream_fsm :=
  { f with state := states.START_BURST }

/-- Embeds `async_event_late_underflow(time_spec)`:
```
  if (state == states::IN_BURST) {
    state            = states::END_OF_BURST;
    wait_eob_timeout = time_spec;
    wait_eob_timeout += WAIT_EOB_ACK_TIMEOUT_S;
  }
```
The last statement adds the `double` 0.01 to a `uint64_t`; the value it stores is
the floating-point round trip of the sum, given by the parameter `add_timeout`. -/
def async_event_late_underflow (add_timeout : Nat → Nat) (f : radio_lime_tx_stream_fsm)
    (time_spec : Nat) : radio_lime_tx_stream_fsm :=
  if f.state = states.IN_BURST then
    { state := states.END_OF_BURST, wait_eob_timeout := add_timeout time_spec }
  else f

/-- Embeds `async_event_end_of_burst_ack()`:
```
  if (state == states::WAIT_END_OF_BURST) {
    state = states::START_BURST;
  }
``` -/
def async_event_end_of_burst_ack (f : radio_lime_tx_stream_fsm) : radio_lime_tx_stream_fsm :=
  if f.state = states.WAIT_END_OF_BURST then { f with state := states.START_BURST } else f

/-- Embeds `transmit_block(metadata, time_spec)`, a `switch` over the state.  The
case `WAIT_END_OF_BURST` leaves the `switch` by `break` only when the wait
expired (`wait_eob_timeout < time_spec`); otherwise it falls through to the
cases `UNINITIALIZED`, `WAIT_STOP`, `STOPPED`, which `return false`.  Every
`break` reaches the final `return true`. -/
def transmit_block (add_timeout : Nat → Nat) (f : radio_lime_tx_stream_fsm)
    (metadata : StreamMeta) (time_spec : Nat) : transmit_block_result :=
  match f.state with
  | .START_BURST =>
    { transmit := true
      metadata := { timestamp := time_spec, waitForTimestamp := true, flushPartialPacket := true }
      fsm := f }
  | .IN_BURST => { transmit := true, metadata := metadata, fsm := f }
  | .END_OF_BURST =>
    { transmit := true
      metadata := { metadata with flushPartialPacket := true }
      fsm :=
        { state := states.WAIT_END_OF_BURST
          wait_eob_timeout :=
            if f.wait_eob_timeout = 0 then add_timeout metadata.timestamp
            else f.wait_eob_timeout } }
  | .WAIT_END_OF_BURST =>
    if f.wait_eob_timeout < time_spec then
      { transmit := true
        metadata := { metadata with waitForTimestamp := true }
        fsm := { f with state := states.IN_BURST } }
    else { transmit := false, metadata := metadata, fsm := f }
  | .UNINITIALIZED => { transmit := false, metadata := metadata, fsm := f }
  | .WAIT_STOP => { transmit := false, metadata := metadata, fsm := f }
  | .STOPPED => { transmit := false, metadata := metadata, fsm := f }

/-- Embeds `stop()`: `state = states::WAIT_STOP;`. -/
def stop (f : radio_lime_tx_stream_fsm) : radio_lime_tx_stream_fsm :=
  { f with state := states.WAIT_STOP }

/-- Embeds `is_stopping()`: `return state == states::WAIT_STOP;`. -/
def is_stopping (f : radio_lime_tx_stream_fsm) : Bool :=
  decide (f.state = states.WAIT_STOP)

/-- Embeds `async_task_stopped()`: `state = states::STOPPED;`. -/
def async_task_stopped (f : radio_lime_tx_stream_fsm) : radio_lime_tx_stream_fsm :=
  { f with state := states.STOPPED }

end radio_lime_tx_stream_fsm

namespace task_redispatcher

/-- Arithmetic of `uint32_t`, the type of `dispatch_fail_count`. -/
def wrap32 (n : Nat) : Nat := n % 2 ^ 32

/-- What a call into the executor leaves: whether the executor accepted the
dispatch, and the value `dispatch_fail_count` holds when the executor returns
(an executor that runs the dispatched closure inline lets `run_task_n_times`
act on the counter before it returns). -/
structure dispatch_result where
  accepted : Bool
  dispatch_fail_count : Nat
  deriving DecidableEq, Repr

/-- The template parameter `Executor` of `task_redispatcher` (no definition in the
header): its two entry points `execute(closure)` and `defer(closure)`, each
given the value of `dispatch_fail_count` at the call. -/
structure executor where
  execute : Nat → dispatch_result
  defer : Nat → dispatch_result

/-- Embeds the closure `dispatch_task` built by `get_dispatch_task`:
```
  if (is_execute) {
    return executor.execute([this, &t]() { run_task_n_times(t); });
  }
  return executor.defer([this, &t]() { run_task_n_times(t); });
``` -/
def dispatch_task (ex : executor) (is_execute : Bool) (count : Nat) : dispatch_result :=
  if is_execute then ex.execute count else ex.defer count

/-- Embeds `bool execute()`:
```
  if (not dispatch_task(true)) {
    dispatch_fail_count.fetch_add(1U, std::memory_order_relaxed);
    return false;
  }
  return true;
```
The result is the returned flag and the value of `dispatch_fail_count` after the
call, started with the counter holding `count`. -/
def execute (ex : executor) (count : Nat) : Bool × Nat :=
  let r := dispatch_task ex true count
  if !r.accepted then (false, wrap32 (r.dispatch_fail_count + 1))
  else (true, r.dispatch_fail_count)

/-- Embeds `bool defer()`:
```
  if (not dispatch_task(false)) {
    dispatch_fail_count.fetch_add(1U, std::memory_order_relaxed);
    return false;
  }
  return true;
``` -/
def defer (ex : executor) (count : Nat) : Bool × Nat :=
  let r := dispatch_task ex false count
  if !r.accepted then (false, wrap32 (r.dispatch_fail_count + 1))
  else (true, r.dispatch_fail_count)

/-- An executor whose queue is full: it rejects every dispatch and runs nothing. -/
def full_executor : executor :=
  { execute := fun count => { accepted := false, dispatch_fail_count := count }
    defer := fun count => { accepted := false, dispatch_fail_count := count } }

/-- An executor that accepts every dispatch and queues the closure for later. -/
def queueing_executor : executor :=
  { execute := fun count => { accepted := true, dispatch_fail_count := count }
    defer := fun count => { accepted := true, dispatch_fail_count := count } }

end task_redispatcher

end srsran

/-! ## The three ways `slot_indication` and `get_dl_sched` can end -/

namespace srsgnb

section facade_lemmas

variable {Slot Cell Events UeDb CfgMsg RachMsg DlRes UlRes : Type}

/-- A sanity check whose condition holds passes. -/
theorem srsran_sanity_check_pass (condition : Bool) (msg : String) (h : condition = true) :
    srsran_sanity_check condition msg = Except.ok () := by
  unfold srsran_sanity_check
  rw [if_pos h]

/-- A sanity check whose condition fails aborts with its diagnostic. -/
theorem srsran_sanity_check_fail (condition : Bool) (msg : String) (h : condition = false) :
    srsran_sanity_check condition msg = Except.error msg := by
  unfold srsran_sanity_check
  rw [h]
  rfl

/-- An index outside the cell list fails the sanity check before anything is called. -/
theorem sched.slot_indication_invalid
    (d : sched_collaborators Slot Cell Events UeDb CfgMsg RachMsg DlRes UlRes)
    (sl : Slot) (c : Nat) (s : sched Cell Events UeDb) (h : s.cells.length ≤ c) :
    sched.slot_indication d sl c s =
      { calls := [], state := s, result := outcome.sanity_check_failed "Invalid cell index" } := by
  have hn : ¬ c < s.cells.length := by omega
  unfold sched.slot_indication
  rw [srsran_sanity_check_fail _ _ (decide_eq_false hn)]

/-- If the cell aborts its slot indication, the pipeline stops after that one call. -/
theorem sched.slot_indication_rejected
    (d : sched_collaborators Slot Cell Events UeDb CfgMsg RachMsg DlRes UlRes)
    (sl : Slot) (c : Nat) (s : sched Cell Events UeDb) (cell : Cell) (msg : String)
    (hcell : s.cells[c]? = some cell) (hrej : d.cell_slot_indication sl cell = Except.error msg) :
    sched.slot_indication d sl c s =
      { calls := [call.cell_slot_indication c sl], state := s,
        result := outcome.cell_rejected msg } := by
  have hlt : c < s.cells.length := by
    rcases List.getElem?_eq_some.1 hcell with ⟨h, _⟩
    exact h
  unfold sched.slot_indication
  rw [srsran_sanity_check_pass _ _ (decide_eq_true hlt)]
  simp only [hcell, hrej]

/-- If the cell accepts the slot and is still in the list after the events were
run, the three steps are made in program order. -/
theorem sched.slot_indication_accepted
    (d : sched_collaborators Slot Cell Events UeDb CfgMsg RachMsg DlRes UlRes)
    (sl : Slot) (c : Nat) (s : sched Cell Events UeDb) (cell cell1 cell2 : Cell)
    (hcell : s.cells[c]? = some cell) (hacc : d.cell_slot_indication sl cell = Except.ok cell1)
    (hrun : (d.events_run sl c s.pending_events s.ue_db (s.cells.set c cell1)).2.2[c]?
              = some cell2) :
    sched.slot_indication d sl c s =
      { calls := [call.cell_slot_indication c sl, call.events_run sl c, call.ra_sch_run_slot c]
        state :=
          { ue_db := (d.events_run sl c s.pending_events s.ue_db (s.cells.set c cell1)).2.1
            cells := (d.events_run sl c s.pending_events s.ue_db (s.cells.set c cell1)).2.2.set c
                       (d.ra_sch_run_slot cell2)
            pending_events :=
              (d.events_run sl c s.pending_events s.ue_db (s.cells.set c cell1)).1 }
        result := outcome.ok () } := by
  have hlt : c < s.cells.length := by
    rcases List.getElem?_eq_some.1 hcell with ⟨h, _⟩
    exact h
  unfold sched.slot_indication
  rw [srsran_sanity_check_pass _ _ (decide_eq_true hlt)]
  simp only [hcell, hacc, hrun]

/-- When the event manager keeps the cells, the entry at a valid index is still
there after `pending_events.run`. -/
theorem sched_collaborators.keeps_cells_get
    (d : sched_collaborators Slot Cell Events UeDb CfgMsg RachMsg DlRes UlRes)
    (hk : d.keeps_cells) (sl : Slot) (c : Nat) (e : Events) (u : UeDb)
    (cs : List Cell) (hc : c < cs.length) :
    ∃ cell2, (d.events_run sl c e u cs).2.2[c]? = some cell2 := by
  have h := hk sl c e u cs
  have hlt : c < (d.events_run sl c e u cs).2.2.length := by omega
  exact ⟨_, List.getElem?_eq_getElem hlt⟩


/-- The failed sanity check of `slot_indication` ends `get_dl_sched`. -/
theorem sched.get_dl_sched_invalid
    (d : sched_collaborators Slot Cell Events UeDb CfgMsg RachMsg DlRes UlRes)
    (sl : Slot) (c : Nat) (s : sched Cell Events UeDb) (h : s.cells.length ≤ c) :
    sched.get_dl_sched d sl c s =
      { calls := [], state := s, result := outcome.sanity_check_failed "Invalid cell index" } := by
  unfold sched.get_dl_sched
  simp only [sched.slot_indication_invalid d sl c s h]

/-- The abort of the cell ends `get_dl_sched`. -/
theorem sched.get_dl_sched_rejected
    (d : sched_collaborators Slot Cell Events UeDb CfgMsg RachMsg DlRes UlRes)
    (sl : Slot) (c : Nat) (s : sched Cell Events UeDb) (cell : Cell) (msg : String)
    (hcell : s.cells[c]? = some cell) (hrej : d.cell_slot_indication sl cell = Except.error msg) :
    sched.get_dl_sched d sl c s =
      { calls := [call.cell_slot_indication c sl], state := s,
        result := outcome.cell_rejected msg } := by
  unfold sched.get_dl_sched
  simp only [sched.slot_indication_rejected d sl c s cell msg hcell hrej]

/-- After an accepted slot indication `get_dl_sched` reads the downlink result of
the cell the pipeline left. -/
theorem sched.get_dl_sched_accepted
    (d : sched_collaborators Slot Cell Events UeDb CfgMsg RachMsg DlRes UlRes)
    (sl : Slot) (c : Nat) (s : sched Cell Events UeDb) (cell cell1 cell2 : Cell)
    (hcell : s.cells[c]? = some cell) (hacc : d.cell_slot_indication sl cell = Except.ok cell1)
    (hrun : (d.events_run sl c s.pending_events s.ue_db (s.cells.set c cell1)).2.2[c]?
              = some cell2) :
    sched.get_dl_sched d sl c s =
      { calls := [call.cell_slot_indication c sl, call.events_run sl c, call.ra_sch_run_slot c,
                  call.cell_get_dl_sched c sl]
        state := (sched.slot_indication d sl c s).state
        result := outcome.ok (d.cell_get_dl_sched sl (d.ra_sch_run_slot cell2)) } := by
  have hlt : c < (d.events_run sl c s.pending_events s.ue_db (s.cells.set c cell1)).2.2.length := by
    rcases List.getElem?_eq_some.1 hrun with ⟨h, _⟩
    exact h
  unfold sched.get_dl_sched
  simp only [sched.slot_indication_accepted d sl c s cell cell1 cell2 hcell hacc hrun]
  simp [List.getElem?_set_self, hlt]

/-- For a valid cell index and an event manager that keeps the cells, a call of
`get_dl_sched` either stops at the rejected `cell->slot_indication` or makes all
four calls; the index stays valid in the state it leaves. -/
theorem sched.get_dl_sched_valid
    (d : sched_collaborators Slot Cell Events UeDb CfgMsg RachMsg DlRes UlRes)
    (hk : d.keeps_cells) (sl : Slot) (c : Nat) (s : sched Cell Events UeDb)
    (hc : c < s.cells.length) :
    c < (sched.get_dl_sched d sl c s).state.cells.length ∧
    ((∃ msg, sched.get_dl_sched d sl c s =
        { calls := [call.cell_slot_indication c sl], state := s,
          result := outcome.cell_rejected msg }) ∨
     (∃ a, (sched.get_dl_sched d sl c s).result = outcome.ok a ∧
        (sched.get_dl_sched d sl c s).calls =
          [call.cell_slot_indication c sl, call.events_run sl c, call.ra_sch_run_slot c,
           call.cell_get_dl_sched c sl])) := by
  have hcell : s.cells[c]? = some (s.cells[c]) := List.getElem?_eq_getElem hc
  cases hacc : d.cell_slot_indication sl (s.cells[c]) with
  | error msg =>
    have h := sched.get_dl_sched_rejected d sl c s _ msg hcell hacc
    refine ⟨?_, Or.inl ⟨msg, h⟩⟩
    rw [h]; exact hc
  | ok cell1 =>
    obtain ⟨cell2, hrun⟩ := sched_collaborators.keeps_cells_get d hk sl c s.pending_events
      s.ue_db (s.cells.set c cell1) (by simpa using hc)
    have h := sched.get_dl_sched_accepted d sl c s _ cell1 cell2 hcell hacc hrun
    have hs := sched.slot_indication_accepted d sl c s _ cell1 cell2 hcell hacc hrun
    have hlt : c < (d.events_run sl c s.pending_events s.ue_db (s.cells.set c cell1)).2.2.length := by
      rcases List.getElem?_eq_some.1 hrun with ⟨h, _⟩
      exact h
    refine ⟨?_, Or.inr ⟨d.cell_get_dl_sched sl (d.ra_sch_run_slot cell2), ?_, ?_⟩⟩
    · rw [h, hs]; simpa using hlt
    · rw [h]
    · rw [h]

end facade_lemmas

end srsgnb

/-! ## The collaborators modelled from the specification -/

namespace srsgnb

namespace spec_model

/-- The event manager of the specification never removes a cell. -/
theorem collaborators_keeps_cells : collaborators.keeps_cells := by
  intro sl c e u cs
  show cs.length ≤ (event_manager.run sl c e u cs).2.2.length
  unfold event_manager.run
  cases h : cs[c]? with
  | none => simp
  | some cell => simp

/-- Applying an event does not move the slot of a cell. -/
theorem apply_event_last_slot (c : cell_sched) (e : pending_event) :
    (c.apply_event e).last_slot = c.last_slot := by
  cases e <;> rfl

/-- Applying a list of events does not move the slot of a cell. -/
theorem foldl_apply_event_last_slot (l : List pending_event) (c : cell_sched) :
    (l.foldl cell_sched.apply_event c).last_slot = c.last_slot := by
  induction l generalizing c with
  | nil => rfl
  | cons e l ih => rw [List.foldl_cons, ih, apply_event_last_slot]

/-- The random-access scheduler does not move the slot of a cell. -/
theorem ra_run_slot_last_slot (c : cell_sched) : c.ra_run_slot.last_slot = c.last_slot := by
  unfold cell_sched.ra_run_slot
  cases h : c.last_slot with
  | none => simp [h]
  | some sl => simp

/-- An accepted slot indication makes the slot current and was for a slot after
the last processed one. -/
theorem slot_indication_ok (sl : slot_point) (c c1 : cell_sched)
    (h : c.slot_indication sl = Except.ok c1) :
    c1.last_slot = some sl ∧ ∀ l, c.last_slot = some l → l < sl := by
  unfold cell_sched.slot_indication at h
  cases hl : c.last_slot with
  | none =>
    rw [hl] at h
    simp only [Except.ok.injEq] at h
    subst h
    exact ⟨rfl, fun l hl2 => by cases hl2⟩
  | some l0 =>
    rw [hl] at h
    by_cases hlt : sl ≤ l0
    · simp [hlt] at h
    · simp only [hlt, if_false, Except.ok.injEq] at h
      subst h
      refine ⟨rfl, fun l hl2 => ?_⟩
      cases hl2
      exact Nat.lt_of_not_le hlt

/-- A slot that is not after the last processed one is rejected by the cell. -/
theorem slot_indication_error (sl l : slot_point) (c : cell_sched)
    (hl : c.last_slot = some l) (hlt : sl ≤ l) :
    c.slot_indication sl = Except.error "Slot indication is not monotonic" := by
  unfold cell_sched.slot_indication
  rw [hl]
  simp [hlt]

/-- The event manager of the specification replaces the addressed cell by the
cell with the drained events applied, and no other cell. -/
theorem run_cells (sl : slot_point) (c : Nat) (em : event_manager) (u : Unit)
    (cells : List cell_sched) (cell : cell_sched) (hcell : cells[c]? = some cell) :
    (event_manager.run sl c em u cells).2.2 =
      cells.set c ((em.queue.filter (pending_event.due sl c)).foldl
        cell_sched.apply_event cell) := by
  unfold event_manager.run
  simp only [hcell]

/-- The cell list after `slot_indication` of the facade: unchanged if the call is
fatal, and otherwise changed at the addressed index only. -/
theorem slot_indication_cells (sl : slot_point) (c : Nat)
    (s : sched cell_sched event_manager Unit) :
    ((sched.slot_indication collaborators sl c s).state = s ∧
      (sched.slot_indication collaborators sl c s).result.is_fatal = true) ∨
    (∃ cell cell1, s.cells[c]? = some cell ∧ cell.slot_indication sl = Except.ok cell1 ∧
      (sched.slot_indication collaborators sl c s).result = outcome.ok () ∧
      (sched.slot_indication collaborators sl c s).state.cells =
        s.cells.set c (((s.pending_events.queue.filter (pending_event.due sl c)).foldl
          cell_sched.apply_event cell1).ra_run_slot)) := by
  by_cases hc : c < s.cells.length
  · have hcell : s.cells[c]? = some (s.cells[c]) := List.getElem?_eq_getElem hc
    cases hacc : (s.cells[c]).slot_indication sl with
    | error msg =>
      left
      rw [sched.slot_indication_rejected collaborators sl c s _ msg hcell hacc]
      exact ⟨rfl, rfl⟩
    | ok cell1 =>
      right
      have hset : (s.cells.set c cell1)[c]? = some cell1 := List.getElem?_set_self hc
      have hrun := run_cells sl c s.pending_events s.ue_db (s.cells.set c cell1) cell1 hset
      have hrun2 : (collaborators.events_run sl c s.pending_events s.ue_db
          (s.cells.set c cell1)).2.2[c]? =
          some ((s.pending_events.queue.filter (pending_event.due sl c)).foldl
            cell_sched.apply_event cell1) := by
        show (event_manager.run sl c s.pending_events s.ue_db (s.cells.set c cell1)).2.2[c]? = _
        rw [hrun, List.set_set]
        exact List.getElem?_set_self hc
      have h := sched.slot_indication_accepted collaborators sl c s _ cell1 _ hcell hacc hrun2
      refine ⟨_, cell1, hcell, hacc, ?_, ?_⟩
      · rw [h]
      · rw [h]
        show (event_manager.run sl c s.pending_events s.ue_db (s.cells.set c cell1)).2.2.set c _ = _
        rw [hrun, List.set_set, List.set_set]
        rfl
  · left
    rw [sched.slot_indication_invalid collaborators sl c s (by omega)]
    exact ⟨rfl, rfl⟩

end spec_model

section
variable {Slot Cell Events UeDb CfgMsg RachMsg DlRes UlRes : Type}

/-- The state `get_dl_sched` leaves is the state its `slot_indication` left. -/
theorem sched.get_dl_sched_state
    (d : sched_collaborators Slot Cell Events UeDb CfgMsg RachMsg DlRes UlRes)
    (sl : Slot) (c : Nat) (s : sched Cell Events UeDb) :
    (sched.get_dl_sched d sl c s).state = (sched.slot_indication d sl c s).state := by
  unfold sched.get_dl_sched
  cases h : (sched.slot_indication d sl c s).result with
  | ok a =>
    simp only [h]
    cases h2 : (sched.slot_indication d sl c s).state.cells[c]? <;> simp [h2]
  | sanity_check_failed msg => simp [h]
  | cell_rejected msg => simp [h]
  | events_rejected msg => simp [h]
  | out_of_bounds => simp [h]

/-- The entry point for RACH indications leaves the cell list and the UE database
as they were. -/
theorem sched.handle_rach_indication_cells
    (d : sched_collaborators Slot Cell Events UeDb CfgMsg RachMsg DlRes UlRes)
    (msg : RachMsg) (s : sched Cell Events UeDb) :
    (sched.handle_rach_indication d msg s).state.cells = s.cells ∧
    (sched.handle_rach_indication d msg s).state.ue_db = s.ue_db ∧
    (sched.handle_rach_indication d msg s).calls = [call.events_handle_rach_indication] := by
  unfold sched.handle_rach_indication
  cases d.events_handle_rach msg s.cells s.pending_events <;> exact ⟨rfl, rfl, rfl⟩

/-- The state `get_ul_sched` leaves is the state it found. -/
theorem sched.get_ul_sched_state
    (d : sched_collaborators Slot Cell Events UeDb CfgMsg RachMsg DlRes UlRes)
    (sl : Slot) (c : Nat) (s : sched Cell Events UeDb) :
    (sched.get_ul_sched d sl c s).state = s := by
  unfold sched.get_ul_sched
  cases h : s.cells[c]? <;> simp [h]

end

namespace spec_model

/-- An accepted `slot_indication(sl, c)` leaves cell `c` with `sl` as its slot. -/
theorem processed_at_least_of_ok (sl : slot_point) (c : Nat)
    (s : sched cell_sched event_manager Unit)
    (h : (sched.slot_indication collaborators sl c s).result = outcome.ok ()) :
    processed_at_least (sched.slot_indication collaborators sl c s).state c sl := by
  rcases slot_indication_cells sl c s with ⟨_, hf⟩ | ⟨cell, cell1, hcell, hacc, _, hcells⟩
  · rw [h] at hf
    cases hf
  · have hc : c < s.cells.length := by
      rcases List.getElem?_eq_some.1 hcell with ⟨h, _⟩
      exact h
    refine ⟨((s.pending_events.queue.filter (pending_event.due sl c)).foldl
      cell_sched.apply_event cell1).ra_run_slot, sl, ?_, ?_, le_refl _⟩
    · rw [hcells]; exact List.getElem?_set_self hc
    · rw [ra_run_slot_last_slot, foldl_apply_event_last_slot]
      exact (slot_indication_ok sl cell cell1 hacc).1

/-- No call on the public interface moves the slot of a cell backwards. -/
theorem processed_at_least_state_after (s : sched cell_sched event_manager Unit) (c : Nat)
    (bound : slot_point) (fc : facade_call) (h : processed_at_least s c bound) :
    processed_at_least (fc.state_after s) c bound := by
  cases fc with
  | handle_cell_configuration_request msg => exact h
  | handle_rach_indication msg =>
    obtain ⟨cell0, l, hcell0, hl, hb⟩ := h
    refine ⟨cell0, l, ?_, hl, hb⟩
    show (sched.handle_rach_indication collaborators msg s).state.cells[c]? = some cell0
    rw [(sched.handle_rach_indication_cells collaborators msg s).1]
    exact hcell0
  | get_ul_sched sl c2 =>
    show processed_at_least (sched.get_ul_sched collaborators sl c2 s).state c bound
    rw [sched.get_ul_sched_state]
    exact h
  | get_dl_sched sl c2 =>
    show processed_at_least (sched.get_dl_sched collaborators sl c2 s).state c bound
    rw [sched.get_dl_sched_state]
    rcases slot_indication_cells sl c2 s with ⟨hs, _⟩ | ⟨cell, cell1, hcell, hacc, _, hcells⟩
    · rw [hs]; exact h
    · obtain ⟨cell0, l, hcell0, hl, hb⟩ := h
      have hc2 : c2 < s.cells.length := by
        rcases List.getElem?_eq_some.1 hcell with ⟨h, _⟩
        exact h
      by_cases hcc : c2 = c
      · subst hcc
        rw [hcell] at hcell0
        cases hcell0
        refine ⟨((s.pending_events.queue.filter (pending_event.due sl c2)).foldl
          cell_sched.apply_event cell1).ra_run_slot, sl, ?_, ?_, ?_⟩
        · rw [hcells]; exact List.getElem?_set_self hc2
        · rw [ra_run_slot_last_slot, foldl_apply_event_last_slot]
          exact (slot_indication_ok sl cell cell1 hacc).1
        · exact le_trans hb (Nat.le_of_lt ((slot_indication_ok sl cell cell1 hacc).2 l hl))
      · refine ⟨cell0, l, ?_, hl, hb⟩
        rw [hcells, List.getElem?_set_ne hcc]
        exact hcell0

/-- No sequence of calls on the public interface moves the slot of a cell
backwards. -/
theorem processed_at_least_state_after_calls (l : List facade_call)
    (s : sched cell_sched event_manager Unit) (c : Nat) (bound : slot_point)
    (h : processed_at_least s c bound) :
    processed_at_least (state_after_calls s l) c bound := by
  induction l generalizing s with
  | nil => exact h
  | cons fc l ih =>
    show processed_at_least (state_after_calls (fc.state_after s) l) c bound
    exact ih _ (processed_at_least_state_after s c bound fc h)

/-- A cell whose slot is `sl` or later makes `slot_indication(sl, c)` and
`get_dl_sched(sl, c)` stop at the rejected reset, with the state untouched. -/
theorem rejected_of_processed_at_least (s : sched cell_sched event_manager Unit) (c : Nat)
    (sl bound : slot_point) (hlt : sl ≤ bound) (h : processed_at_least s c bound) :
    sched.slot_indication collaborators sl c s =
      { calls := [call.cell_slot_indication c sl], state := s,
        result := outcome.cell_rejected "Slot indication is not monotonic" } ∧
    sched.get_dl_sched collaborators sl c s =
      { calls := [call.cell_slot_indication c sl], state := s,
        result := outcome.cell_rejected "Slot indication is not monotonic" } := by
  obtain ⟨cell, l, hcell, hl, hb⟩ := h
  have herr : collaborators.cell_slot_indication sl cell =
      Except.error "Slot indication is not monotonic" :=
    slot_indication_error sl l cell hl (le_trans hlt hb)
  exact ⟨sched.slot_indication_rejected collaborators sl c s cell _ hcell herr,
    sched.get_dl_sched_rejected collaborators sl c s cell _ hcell herr⟩

end spec_model

section
variable {Slot Cell Events UeDb CfgMsg RachMsg DlRes UlRes : Type}

end

end srsgnb
/-! ## Submission entry points -/

namespace srsgnb

section claims_submission

variable {Slot Cell Events UeDb CfgMsg RachMsg DlRes UlRes : Type}

/-- C1, as stated, fails: on a scheduler whose cell 0 already exists, a
configuration request for cell 0 returns `true` and leaves an event in the
queue, a second identical request returns `true` again (not `false`), and a
request for the non-existent cell 7 returns `true` as well. -/
theorem handle_cell_configuration_request_accepts_duplicate :
    (sched.handle_cell_configuration_request spec_model.collaborators ⟨0⟩
        spec_model.one_cell_sched).result = outcome.ok true ∧
    (sched.handle_cell_configuration_request spec_model.collaborators ⟨0⟩
        spec_model.one_cell_sched).state.pending_events.queue
      = [spec_model.pending_event.cell_configuration ⟨0⟩] ∧
    (sched.handle_cell_configuration_request spec_model.collaborators ⟨0⟩
        (sched.handle_cell_configuration_request spec_model.collaborators ⟨0⟩
          spec_model.one_cell_sched).state).result ≠ outcome.ok false ∧
    (sched.handle_cell_configuration_request spec_model.collaborators ⟨7⟩
        spec_model.one_cell_sched).result = outcome.ok true := by
  refine ⟨rfl, rfl, ?_, rfl⟩
  decide

/-- C1 (amended): `sched::handle_cell_configuration_request` performs no
validation.  For every request and every scheduler state it makes the single
call `pending_events.handle(msg)`, changes nothing but the event manager, and
returns `true`; a second identical call returns `true` as well. -/
theorem handle_cell_configuration_request_always_true
    (d : sched_collaborators Slot Cell Events UeDb CfgMsg RachMsg DlRes UlRes)
    (msg : CfgMsg) (s : sched Cell Events UeDb) :
    (sched.handle_cell_configuration_request d msg s).result = outcome.ok true ∧
    (sched.handle_cell_configuration_request d msg s).calls
      = [call.events_handle_cell_configuration_request] ∧
    (sched.handle_cell_configuration_request d msg s).state
      = { s with pending_events := d.events_handle_cfg msg s.pending_events } ∧
    (sched.handle_cell_configuration_request d msg
        (sched.handle_cell_configuration_request d msg s).state).result = outcome.ok true :=
  ⟨rfl, rfl, rfl, rfl⟩

/-- C6, with the event manager of the specification: `handle_rach_indication` ends
as its one call `pending_events.handle(msg)` ends.  For an indication whose cell
index is out of range that call is a fatal contract violation and the scheduler
state is left as it was, so nothing is enqueued; for an indication with an
in-range cell index the call returns and exactly one pending event, the
indication, is appended to the queue. -/
theorem handle_rach_indication_validates_cell_index :
    (∀ (Slot Cell Events UeDb CfgMsg RachMsg DlRes UlRes : Type)
       (d : sched_collaborators Slot Cell Events UeDb CfgMsg RachMsg DlRes UlRes)
       (msg : RachMsg) (s : sched Cell Events UeDb),
       (∀ m, d.events_handle_rach msg s.cells s.pending_events = Except.error m →
          sched.handle_rach_indication d msg s =
            { calls := [call.events_handle_rach_indication], state := s,
              result := outcome.events_rejected m }) ∧
       (∀ e, d.events_handle_rach msg s.cells s.pending_events = Except.ok e →
          sched.handle_rach_indication d msg s =
            { calls := [call.events_handle_rach_indication]
              state := { s with pending_events := e }
              result := outcome.ok () })) ∧
    (∀ (msg : spec_model.rach_indication_message)
       (s : sched spec_model.cell_sched spec_model.event_manager Unit),
       (s.cells.length ≤ msg.cell_index →
          (sched.handle_rach_indication spec_model.collaborators msg s).result.is_fatal = true ∧
          (sched.handle_rach_indication spec_model.collaborators msg s).result
            = outcome.events_rejected "Invalid cell index" ∧
          (sched.handle_rach_indication spec_model.collaborators msg s).state = s) ∧
       (msg.cell_index < s.cells.length →
          (sched.handle_rach_indication spec_model.collaborators msg s).result = outcome.ok () ∧
          (sched.handle_rach_indication spec_model.collaborators msg s).state
            = { s with pending_events :=
                  { s.pending_events with
                    queue := s.pending_events.queue ++
                      [spec_model.pending_event.rach_indication msg] } })) := by
  refine ⟨?_, ?_⟩
  · intro _ _ _ _ _ _ _ _ d msg s
    refine ⟨?_, ?_⟩
    · intro m h
      unfold sched.handle_rach_indication
      rw [h]
    · intro e h
      unfold sched.handle_rach_indication
      rw [h]
  · intro msg s
    refine ⟨?_, ?_⟩
    · intro h
      have hn : ¬ msg.cell_index < s.cells.length := Nat.not_lt.2 h
      have he : spec_model.collaborators.events_handle_rach msg s.cells s.pending_events
          = Except.error "Invalid cell index" := by
        show spec_model.event_manager.handle_rach msg s.cells s.pending_events = _
        unfold spec_model.event_manager.handle_rach
        rw [if_neg hn]
      unfold sched.handle_rach_indication
      rw [he]
      exact ⟨rfl, rfl, rfl⟩
    · intro h
      have he : spec_model.collaborators.events_handle_rach msg s.cells s.pending_events
          = Except.ok (s.pending_events.handle (spec_model.pending_event.rach_indication msg)) := by
        show spec_model.event_manager.handle_rach msg s.cells s.pending_events = _
        unfold spec_model.event_manager.handle_rach
        rw [if_pos h]
      unfold sched.handle_rach_indication
      rw [he]
      exact ⟨rfl, rfl⟩

/-- Witness for C6: with the single cell 0, an indication for cell 7 is a fatal
contract violation and leaves the queue empty; an indication for cell 0 is
enqueued. -/
theorem handle_rach_indication_validates_cell_index_witness :
    spec_model.one_cell_sched.cells.length ≤ 7 ∧
    (sched.handle_rach_indication spec_model.collaborators ⟨7, 100, 5⟩
        spec_model.one_cell_sched).result = outcome.events_rejected "Invalid cell index" ∧
    (sched.handle_rach_indication spec_model.collaborators ⟨7, 100, 5⟩
        spec_model.one_cell_sched).state = spec_model.one_cell_sched ∧
    (0 : Nat) < spec_model.one_cell_sched.cells.length ∧
    (sched.handle_rach_indication spec_model.collaborators ⟨0, 100, 5⟩
        spec_model.one_cell_sched).state.pending_events.queue
      = [spec_model.pending_event.rach_indication ⟨0, 100, 5⟩] :=
  ⟨by decide,
   ((handle_rach_indication_validates_cell_index.2 ⟨7, 100, 5⟩
      spec_model.one_cell_sched).1 (by decide)).2.1,
   ((handle_rach_indication_validates_cell_index.2 ⟨7, 100, 5⟩
      spec_model.one_cell_sched).1 (by decide)).2.2,
   by decide,
   congrArg (fun st => st.pending_events.queue)
     ((handle_rach_indication_validates_cell_index.2 ⟨0, 100, 5⟩
        spec_model.one_cell_sched).2 (by decide)).2⟩

/-- C10: the two mutation entry points only enqueue.  Each of
`handle_cell_configuration_request` and `handle_rach_indication` makes exactly
one call, `pending_events.handle(msg)`, and leaves the cell list (hence every
resource grid and every random-access scheduler) and the UE database as they
were; the only part of the state that changes is the event manager, as that one
call leaves it.  With the queue of the specification the only change is the one
event appended to the queue. -/
theorem mutation_entry_points_only_enqueue :
    (∀ (Slot Cell Events UeDb CfgMsg RachMsg DlRes UlRes : Type)
       (d : sched_collaborators Slot Cell Events UeDb CfgMsg RachMsg DlRes UlRes)
       (cfg : CfgMsg) (rach : RachMsg) (s : sched Cell Events UeDb),
       ((sched.handle_cell_configuration_request d cfg s).calls
           = [call.events_handle_cell_configuration_request] ∧
        (sched.handle_cell_configuration_request d cfg s).state.cells = s.cells ∧
        (sched.handle_cell_configuration_request d cfg s).state.ue_db = s.ue_db ∧
        (sched.handle_cell_configuration_request d cfg s).state.pending_events
           = d.events_handle_cfg cfg s.pending_events) ∧
       ((sched.handle_rach_indication d rach s).calls = [call.events_handle_rach_indication] ∧
        (sched.handle_rach_indication d rach s).state.cells = s.cells ∧
        (sched.handle_rach_indication d rach s).state.ue_db = s.ue_db ∧
        (sched.handle_rach_indication d rach s).state.pending_events
           = (match d.events_handle_rach rach s.cells s.pending_events with
              | Except.ok e => e
              | Except.error _ => s.pending_events))) ∧
    (∀ (cfg : spec_model.cell_configuration_request_message)
       (rach : spec_model.rach_indication_message)
       (s : sched spec_model.cell_sched spec_model.event_manager Unit),
       (sched.handle_cell_configuration_request spec_model.collaborators cfg s).state
         = { s with pending_events :=
               { s.pending_events with
                 queue := s.pending_events.queue ++
                   [spec_model.pending_event.cell_configuration cfg] } } ∧
       (sched.handle_rach_indication spec_model.collaborators rach s).state
         = { s with pending_events :=
               { s.pending_events with
                 queue := s.pending_events.queue ++
                   (if rach.cell_index < s.cells.length
                    then [spec_model.pending_event.rach_indication rach] else []) } }) := by
  refine ⟨?_, ?_⟩
  · intro _ _ _ _ _ _ _ _ d cfg rach s
    refine ⟨⟨rfl, rfl, rfl, rfl⟩, ?_⟩
    unfold sched.handle_rach_indication
    cases d.events_handle_rach rach s.cells s.pending_events <;> exact ⟨rfl, rfl, rfl, rfl⟩
  · intro cfg rach s
    refine ⟨rfl, ?_⟩
    by_cases h : rach.cell_index < s.cells.length
    · have he : spec_model.collaborators.events_handle_rach rach s.cells s.pending_events
          = Except.ok (s.pending_events.handle (spec_model.pending_event.rach_indication rach)) := by
        show spec_model.event_manager.handle_rach rach s.cells s.pending_events = _
        unfold spec_model.event_manager.handle_rach
        rw [if_pos h]
      unfold sched.handle_rach_indication
      rw [he, if_pos h]
      rfl
    · have he : spec_model.collaborators.events_handle_rach rach s.cells s.pending_events
          = Except.error "Invalid cell index" := by
        show spec_model.event_manager.handle_rach rach s.cells s.pending_events = _
        unfold spec_model.event_manager.handle_rach
        rw [if_neg h]
      unfold sched.handle_rach_indication
      rw [he, if_neg h]
      simp

end claims_submission

/-! ## The per-slot pipeline -/

section claims_pipeline

variable {Slot Cell Events UeDb CfgMsg RachMsg DlRes UlRes : Type}

/-- C4: for a valid cell index `get_ul_sched(sl, c)` leaves the scheduler state
(cells, pending events, UE database) unchanged and makes a single call, the
read `cells[c]->get_ul_sched(sl)`, whose value it returns; none of the pipeline
steps (cell reset, pending-event run, random-access run) is made. -/
theorem get_ul_sched_reads_only
    (d : sched_collaborators Slot Cell Events UeDb CfgMsg RachMsg DlRes UlRes)
    (sl : Slot) (c : Nat) (s : sched Cell Events UeDb) (hc : c < s.cells.length) :
    (sched.get_ul_sched d sl c s).state = s ∧
    (sched.get_ul_sched d sl c s).calls = [call.cell_get_ul_sched c sl] ∧
    (∀ x ∈ (sched.get_ul_sched d sl c s).calls, x.is_pipeline_step = false) ∧
    ∃ cell, s.cells[c]? = some cell ∧
      (sched.get_ul_sched d sl c s).result = outcome.ok (d.cell_get_ul_sched sl cell) := by
  have hcell : s.cells[c]? = some (s.cells[c]) := List.getElem?_eq_getElem hc
  have h : sched.get_ul_sched d sl c s =
      { calls := [call.cell_get_ul_sched c sl], state := s,
        result := outcome.ok (d.cell_get_ul_sched sl (s.cells[c])) } := by
    unfold sched.get_ul_sched
    simp only [hcell]
  rw [h]
  refine ⟨rfl, rfl, ?_, _, hcell, rfl⟩
  intro x hx
  simp only [List.mem_singleton] at hx
  subst hx
  rfl

/-- Witness for C4: `get_ul_sched(101, 0)` on the scheduler with the single cell 0. -/
theorem get_ul_sched_reads_only_witness :
    0 < spec_model.one_cell_sched.cells.length ∧
    (sched.get_ul_sched spec_model.collaborators 101 0 spec_model.one_cell_sched).state
      = spec_model.one_cell_sched ∧
    (sched.get_ul_sched spec_model.collaborators 101 0 spec_model.one_cell_sched).calls
      = [call.cell_get_ul_sched 0 101] :=
  ⟨by decide,
   (get_ul_sched_reads_only spec_model.collaborators 101 0 spec_model.one_cell_sched
      (by decide)).1,
   (get_ul_sched_reads_only spec_model.collaborators 101 0 spec_model.one_cell_sched
      (by decide)).2.1⟩

/-- C5: for a valid cell index the calls `slot_indication(sl, c)` makes are an
initial segment of: reset of the cell (`cell->slot_indication(sl)`), run of the
pending events for `(sl, c)`, run of the random-access scheduler; so the
random-access scheduler never runs before the other two.  When the cell accepts
the slot, all three are made in this order and on each other's results: the
events are run on the cell list holding the reset cell, and the random-access
scheduler runs on the cell the events left. -/
theorem slot_indication_step_order
    (d : sched_collaborators Slot Cell Events UeDb CfgMsg RachMsg DlRes UlRes)
    (sl : Slot) (c : Nat) (s : sched Cell Events UeDb) (cell : Cell)
    (hcell : s.cells[c]? = some cell) :
    (sched.slot_indication d sl c s).calls <+:
      [call.cell_slot_indication c sl, call.events_run sl c, call.ra_sch_run_slot c] ∧
    (sched.slot_indication d sl c s).calls.head? = some (call.cell_slot_indication c sl) ∧
    (∀ cell1, d.cell_slot_indication sl cell = Except.ok cell1 → d.keeps_cells →
      ∃ cell2,
        (d.events_run sl c s.pending_events s.ue_db (s.cells.set c cell1)).2.2[c]? = some cell2 ∧
        sched.slot_indication d sl c s =
          { calls := [call.cell_slot_indication c sl, call.events_run sl c,
                      call.ra_sch_run_slot c]
            state :=
              { ue_db := (d.events_run sl c s.pending_events s.ue_db (s.cells.set c cell1)).2.1
                cells :=
                  (d.events_run sl c s.pending_events s.ue_db (s.cells.set c cell1)).2.2.set c
                    (d.ra_sch_run_slot cell2)
                pending_events :=
                  (d.events_run sl c s.pending_events s.ue_db (s.cells.set c cell1)).1 }
            result := outcome.ok () }) := by
  have hc : c < s.cells.length := by
    rcases List.getElem?_eq_some.1 hcell with ⟨h, _⟩
    exact h
  refine ⟨?_, ?_, ?_⟩
  · cases hacc : d.cell_slot_indication sl cell with
    | error msg =>
      rw [sched.slot_indication_rejected d sl c s cell msg hcell hacc]
      exact ⟨[call.events_run sl c, call.ra_sch_run_slot c], rfl⟩
    | ok cell1 =>
      cases hrun : (d.events_run sl c s.pending_events s.ue_db (s.cells.set c cell1)).2.2[c]? with
      | none =>
        unfold sched.slot_indication
        rw [srsran_sanity_check_pass _ _ (decide_eq_true hc)]
        simp only [hcell, hacc, hrun]
        exact ⟨[call.ra_sch_run_slot c], rfl⟩
      | some cell2 =>
        rw [sched.slot_indication_accepted d sl c s cell cell1 cell2 hcell hacc hrun]
  · cases hacc : d.cell_slot_indication sl cell with
    | error msg =>
      rw [sched.slot_indication_rejected d sl c s cell msg hcell hacc]
      rfl
    | ok cell1 =>
      cases hrun : (d.events_run sl c s.pending_events s.ue_db (s.cells.set c cell1)).2.2[c]? with
      | none =>
        unfold sched.slot_indication
        rw [srsran_sanity_check_pass _ _ (decide_eq_true hc)]
        simp only [hcell, hacc, hrun]
        rfl
      | some cell2 =>
        rw [sched.slot_indication_accepted d sl c s cell cell1 cell2 hcell hacc hrun]
        rfl
  · intro cell1 hacc hk
    obtain ⟨cell2, hrun⟩ := sched_collaborators.keeps_cells_get d hk sl c s.pending_events
      s.ue_db (s.cells.set c cell1) (by simpa using hc)
    exact ⟨cell2, hrun, sched.slot_indication_accepted d sl c s cell cell1 cell2 hcell hacc hrun⟩

/-- Witness for C5: `slot_indication(101, 0)` on the scheduler with the single
cell 0 makes the three calls in order. -/
theorem slot_indication_step_order_witness :
    spec_model.one_cell_sched.cells[0]? = some spec_model.fresh_cell ∧
    (sched.slot_indication spec_model.collaborators 101 0 spec_model.one_cell_sched).calls <+:
      [call.cell_slot_indication 0 101, call.events_run 101 0, call.ra_sch_run_slot 0] ∧
    (sched.slot_indication spec_model.collaborators 101 0 spec_model.one_cell_sched).calls
      = [call.cell_slot_indication 0 101, call.events_run 101 0, call.ra_sch_run_slot 0] :=
  ⟨rfl,
   (slot_indication_step_order spec_model.collaborators 101 0 spec_model.one_cell_sched
      spec_model.fresh_cell rfl).1,
   rfl⟩

/-- C7: for `c ≥ cells.size()` the call `get_dl_sched(sl, c)` fails the check
"Invalid cell index" with no collaborator call made and the state untouched;
for `c < cells.size()` no sanity check fails, the cell at `c` exists when it is
indexed after the check, and (the event manager never removing cells) no
indexing of `get_dl_sched` is out of bounds. -/
theorem get_dl_sched_cell_index_check
    (d : sched_collaborators Slot Cell Events UeDb CfgMsg RachMsg DlRes UlRes)
    (sl : Slot) (c : Nat) (s : sched Cell Events UeDb) :
    (s.cells.length ≤ c →
      sched.get_dl_sched d sl c s =
        { calls := [], state := s,
          result := outcome.sanity_check_failed "Invalid cell index" }) ∧
    (c < s.cells.length →
      (∃ cell, s.cells[c]? = some cell) ∧
      (∀ msg, (sched.get_dl_sched d sl c s).result ≠ outcome.sanity_check_failed msg) ∧
      (d.keeps_cells → (sched.get_dl_sched d sl c s).result ≠ outcome.out_of_bounds)) := by
  refine ⟨sched.get_dl_sched_invalid d sl c s, ?_⟩
  intro hc
  have hcell : s.cells[c]? = some (s.cells[c]) := List.getElem?_eq_getElem hc
  refine ⟨⟨_, hcell⟩, ?_, ?_⟩
  · intro msg
    cases hacc : d.cell_slot_indication sl (s.cells[c]) with
    | error m =>
      rw [sched.get_dl_sched_rejected d sl c s _ m hcell hacc]
      simp
    | ok cell1 =>
      cases hrun : (d.events_run sl c s.pending_events s.ue_db (s.cells.set c cell1)).2.2[c]? with
      | none =>
        unfold sched.get_dl_sched sched.slot_indication
        rw [srsran_sanity_check_pass _ _ (decide_eq_true hc)]
        simp only [hcell, hacc, hrun]
        simp
      | some cell2 =>
        rw [sched.get_dl_sched_accepted d sl c s _ cell1 cell2 hcell hacc hrun]
        simp
  · intro hk
    obtain ⟨_, h⟩ := sched.get_dl_sched_valid d hk sl c s hc
    rcases h with ⟨msg, h⟩ | ⟨a, h, _⟩
    · rw [h]; simp
    · rw [h]; simp

/-- Witness for C7: index 1 is rejected and index 0 passes on the scheduler with
the single cell 0. -/
theorem get_dl_sched_cell_index_check_witness :
    spec_model.one_cell_sched.cells.length ≤ 1 ∧
    0 < spec_model.one_cell_sched.cells.length ∧
    spec_model.collaborators.keeps_cells ∧
    sched.get_dl_sched spec_model.collaborators 100 1 spec_model.one_cell_sched =
      { calls := [], state := spec_model.one_cell_sched,
        result := outcome.sanity_check_failed "Invalid cell index" } ∧
    (sched.get_dl_sched spec_model.collaborators 100 0 spec_model.one_cell_sched).result
      ≠ outcome.out_of_bounds :=
  ⟨by decide, by decide, spec_model.collaborators_keeps_cells,
   (get_dl_sched_cell_index_check spec_model.collaborators 100 1
      spec_model.one_cell_sched).1 (by decide),
   ((get_dl_sched_cell_index_check spec_model.collaborators 100 0
      spec_model.one_cell_sched).2 (by decide)).2.2 spec_model.collaborators_keeps_cells⟩

/-- C8 fails on the code: on a scheduler with the single cell 0,
`get_ul_sched(100, 1)` evaluates `cells[1]` with no check in front of it (an
out-of-bounds access, not a fatal contract violation), whereas the sibling
`get_dl_sched(100, 1)` fails the check "Invalid cell index". -/
theorem get_ul_sched_unchecked_index :
    spec_model.one_cell_sched.cells.length ≤ 1 ∧
    (sched.get_ul_sched spec_model.collaborators 100 1 spec_model.one_cell_sched).result
      = outcome.out_of_bounds ∧
    (sched.get_ul_sched spec_model.collaborators 100 1
        spec_model.one_cell_sched).result.is_fatal = false ∧
    (sched.get_dl_sched spec_model.collaborators 100 1 spec_model.one_cell_sched).result
      = outcome.sanity_check_failed "Invalid cell index" := by
  refine ⟨?_, rfl, rfl, rfl⟩
  decide

/-- C9: monotonicity, on the cell of the specification.  Once
`slot_indication(S', c)` has been accepted, then after any further sequence of
calls on the public interface an attempt to process an earlier slot `S < S'`
for `c`, by `slot_indication(S, c)` or through `get_dl_sched(S, c)`, ends as a
fatal contract violation raised by the reset of the cell: the scheduler state
is left as it was (no grid reset, no event applied) and neither the event run
nor the random-access run is called. -/
theorem slot_indication_rejects_earlier_slot
    (s : sched spec_model.cell_sched spec_model.event_manager Unit) (c : Nat)
    (S S' : spec_model.slot_point) (later : List spec_model.facade_call) (hlt : S < S')
    (hproc : (sched.slot_indication spec_model.collaborators S' c s).result = outcome.ok ()) :
    sched.slot_indication spec_model.collaborators S c
        (spec_model.state_after_calls
          (sched.slot_indication spec_model.collaborators S' c s).state later)
      = { calls := [call.cell_slot_indication c S]
          state := spec_model.state_after_calls
            (sched.slot_indication spec_model.collaborators S' c s).state later
          result := outcome.cell_rejected "Slot indication is not monotonic" } ∧
    sched.get_dl_sched spec_model.collaborators S c
        (spec_model.state_after_calls
          (sched.slot_indication spec_model.collaborators S' c s).state later)
      = { calls := [call.cell_slot_indication c S]
          state := spec_model.state_after_calls
            (sched.slot_indication spec_model.collaborators S' c s).state later
          result := outcome.cell_rejected "Slot indication is not monotonic" } ∧
    (sched.get_dl_sched spec_model.collaborators S c
        (spec_model.state_after_calls
          (sched.slot_indication spec_model.collaborators S' c s).state later)).result.is_fatal
      = true := by
  have h := spec_model.rejected_of_processed_at_least _ c S S' (Nat.le_of_lt hlt)
    (spec_model.processed_at_least_state_after_calls later _ c S'
      (spec_model.processed_at_least_of_ok S' c s hproc))
  refine ⟨h.1, h.2, ?_⟩
  rw [h.2]
  rfl

/-- Witness for C9: slot 101 is processed for cell 0, a RACH indication is
submitted and slot 102 is processed; slot 100 is then rejected. -/
theorem slot_indication_rejects_earlier_slot_witness :
    (100 : Nat) < 101 ∧
    (sched.slot_indication spec_model.collaborators 101 0
        spec_model.one_cell_sched).result = outcome.ok () ∧
    (sched.get_dl_sched spec_model.collaborators 100 0
        (spec_model.state_after_calls
          (sched.slot_indication spec_model.collaborators 101 0
            spec_model.one_cell_sched).state
          [spec_model.facade_call.handle_rach_indication ⟨0, 100, 5⟩,
           spec_model.facade_call.get_dl_sched 102 0])).result
      = outcome.cell_rejected "Slot indication is not monotonic" :=
  ⟨by decide, rfl,
   congrArg call_result.result
     (slot_indication_rejects_earlier_slot spec_model.one_cell_sched 0 100 101
        [spec_model.facade_call.handle_rach_indication ⟨0, 100, 5⟩,
         spec_model.facade_call.get_dl_sched 102 0] (by decide) rfl).2.1⟩

end claims_pipeline

end srsgnb
/-! ## Resource grid, event order and random access in the model of the specification -/

namespace srsgnb

namespace spec_model

/-- The state `slot_indication` of the facade leaves when the cell accepts the
slot: the drained events are applied in queue order to the reset cell, then the
random-access scheduler runs. -/
theorem slot_indication_of_accept (sl : slot_point) (c : Nat)
    (s : sched cell_sched event_manager Unit) (cell cell1 : cell_sched)
    (hcell : s.cells[c]? = some cell) (hacc : cell.slot_indication sl = Except.ok cell1) :
    (sched.slot_indication collaborators sl c s).result = outcome.ok () ∧
    (sched.slot_indication collaborators sl c s).state.cells =
      s.cells.set c (((s.pending_events.queue.filter (pending_event.due sl c)).foldl
        cell_sched.apply_event cell1).ra_run_slot) ∧
    (sched.slot_indication collaborators sl c s).state.pending_events.queue =
      s.pending_events.queue.filter
        (fun e => !(e.due sl c) && decide (e.cell_index < s.cells.length)) := by
  have hc : c < s.cells.length := by
    rcases List.getElem?_eq_some.1 hcell with ⟨h, _⟩
    exact h
  have hset : (s.cells.set c cell1)[c]? = some cell1 := List.getElem?_set_self hc
  have hrun := run_cells sl c s.pending_events s.ue_db (s.cells.set c cell1) cell1 hset
  have hrun2 : (collaborators.events_run sl c s.pending_events s.ue_db
      (s.cells.set c cell1)).2.2[c]? =
      some ((s.pending_events.queue.filter (pending_event.due sl c)).foldl
        cell_sched.apply_event cell1) := by
    show (event_manager.run sl c s.pending_events s.ue_db (s.cells.set c cell1)).2.2[c]? = _
    rw [hrun, List.set_set]
    exact List.getElem?_set_self hc
  have h := sched.slot_indication_accepted collaborators sl c s cell cell1 _ hcell hacc hrun2
  refine ⟨?_, ?_, ?_⟩
  · rw [h]
  · rw [h]
    show (event_manager.run sl c s.pending_events s.ue_db (s.cells.set c cell1)).2.2.set c _ = _
    rw [hrun, List.set_set, List.set_set]
    rfl
  · rw [h]
    show (event_manager.run sl c s.pending_events s.ue_db (s.cells.set c cell1)).1.queue = _
    unfold event_manager.run
    simp only [hset, List.length_set]

/-- An allocation that overlaps a commitment fails and leaves the grid as it was. -/
theorem allocate_dl_overlap (g : resource_grid) (gr : grant)
    (h : ∃ x ∈ g.dl, x.region.overlaps gr.region = true) : g.allocate_dl gr = (false, g) := by
  unfold resource_grid.allocate_dl
  rw [if_pos (List.any_eq_true.2 h)]

/-- An uplink allocation that overlaps a commitment fails and leaves the grid as
it was. -/
theorem allocate_ul_overlap (g : resource_grid) (gr : grant)
    (h : ∃ x ∈ g.ul, x.region.overlaps gr.region = true) : g.allocate_ul gr = (false, g) := by
  unfold resource_grid.allocate_ul
  rw [if_pos (List.any_eq_true.2 h)]

/-- Adding a grant that overlaps none of a disjoint list keeps the list disjoint. -/
theorem grants_disjoint_append (l : List grant) (gr : grant) (hl : grants_disjoint l)
    (h : ¬ (l.any (fun x => x.region.overlaps gr.region) = true)) :
    grants_disjoint (l ++ [gr]) := by
  unfold grants_disjoint at hl ⊢
  rw [List.pairwise_append]
  refine ⟨hl, List.pairwise_singleton _ _, ?_⟩
  intro a ha b hb
  rw [List.mem_singleton] at hb
  subst hb
  cases hov : a.region.overlaps b.region with
  | false => rfl
  | true => exact absurd (List.any_eq_true.2 ⟨a, ha, hov⟩) h

/-- A downlink allocation keeps the commitments disjoint and the uplink part. -/
theorem allocate_dl_disjoint (g : resource_grid) (gr : grant) (h : grants_disjoint g.dl) :
    grants_disjoint (g.allocate_dl gr).2.dl ∧ (g.allocate_dl gr).2.ul = g.ul := by
  unfold resource_grid.allocate_dl
  by_cases hov : g.dl.any (fun x => x.region.overlaps gr.region) = true
  · rw [if_pos hov]
    exact ⟨h, rfl⟩
  · rw [if_neg hov]
    exact ⟨grants_disjoint_append g.dl gr h hov, rfl⟩

/-- An uplink allocation keeps the commitments disjoint and the downlink part. -/
theorem allocate_ul_disjoint (g : resource_grid) (gr : grant) (h : grants_disjoint g.ul) :
    grants_disjoint (g.allocate_ul gr).2.ul ∧ (g.allocate_ul gr).2.dl = g.dl := by
  unfold resource_grid.allocate_ul
  by_cases hov : g.ul.any (fun x => x.region.overlaps gr.region) = true
  · rw [if_pos hov]
    exact ⟨h, rfl⟩
  · rw [if_neg hov]
    exact ⟨grants_disjoint_append g.ul gr h hov, rfl⟩

/-- A first-fit downlink request keeps the commitments disjoint and the uplink
part. -/
theorem allocate_dl_first_disjoint (g : resource_grid) (owner : Nat) (rs : List grid_region)
    (h : grants_disjoint g.dl) :
    grants_disjoint (g.allocate_dl_first owner rs).2.dl ∧
    (g.allocate_dl_first owner rs).2.ul = g.ul := by
  induction rs with
  | nil => exact ⟨h, rfl⟩
  | cons r rs ih =>
    unfold resource_grid.allocate_dl_first
    by_cases hr : (g.allocate_dl { owner := owner, region := r }).1 = true
    · rw [if_pos hr]
      exact allocate_dl_disjoint g _ h
    · rw [if_neg hr]
      exact ih

/-- A first-fit uplink request keeps the commitments disjoint and the downlink
part. -/
theorem allocate_ul_first_disjoint (g : resource_grid) (owner : Nat) (rs : List grid_region)
    (h : grants_disjoint g.ul) :
    grants_disjoint (g.allocate_ul_first owner rs).2.ul ∧
    (g.allocate_ul_first owner rs).2.dl = g.dl := by
  induction rs with
  | nil => exact ⟨h, rfl⟩
  | cons r rs ih =>
    unfold resource_grid.allocate_ul_first
    by_cases hr : (g.allocate_ul { owner := owner, region := r }).1 = true
    · rw [if_pos hr]
      exact allocate_ul_disjoint g _ h
    · rw [if_neg hr]
      exact ih

/-- The grid one step of the random-access scheduler leaves is the grid it found
or the result of a first-fit request on it. -/
theorem ra_step_grid (sl : slot_point) (cfg : ra_scheduler)
    (acc : resource_grid × List ra_attempt) (a : ra_attempt) :
    (ra_step sl cfg acc a).1 = acc.1 ∨
    (ra_step sl cfg acc a).1 = (acc.1.allocate_dl_first a.preamble_id cfg.rar_regions).2 ∨
    (ra_step sl cfg acc a).1 = (acc.1.allocate_ul_first a.preamble_id cfg.msg3_regions).2 := by
  unfold ra_step
  cases a.state <;> simp only [] <;> (try split_ifs) <;> simp

/-- One step of the random-access scheduler keeps both parts of the grid
disjoint. -/
theorem ra_step_disjoint (sl : slot_point) (cfg : ra_scheduler)
    (acc : resource_grid × List ra_attempt) (a : ra_attempt)
    (h : grants_disjoint acc.1.dl ∧ grants_disjoint acc.1.ul) :
    grants_disjoint (ra_step sl cfg acc a).1.dl ∧
    grants_disjoint (ra_step sl cfg acc a).1.ul := by
  rcases ra_step_grid sl cfg acc a with hg | hg | hg
  · rw [hg]; exact h
  · rw [hg]
    have h2 := allocate_dl_first_disjoint acc.1 a.preamble_id cfg.rar_regions h.1
    exact ⟨h2.1, by rw [h2.2]; exact h.2⟩
  · rw [hg]
    have h2 := allocate_ul_first_disjoint acc.1 a.preamble_id cfg.msg3_regions h.2
    exact ⟨by rw [h2.2]; exact h.1, h2.1⟩

/-- The random-access scheduler keeps both parts of the grid disjoint over a list
of attempts. -/
theorem foldl_ra_step_disjoint (sl : slot_point) (cfg : ra_scheduler)
    (l : List ra_attempt) (acc : resource_grid × List ra_attempt)
    (h : grants_disjoint acc.1.dl ∧ grants_disjoint acc.1.ul) :
    grants_disjoint (l.foldl (ra_step sl cfg) acc).1.dl ∧
    grants_disjoint (l.foldl (ra_step sl cfg) acc).1.ul := by
  induction l generalizing acc with
  | nil => exact h
  | cons a l ih =>
    rw [List.foldl_cons]
    exact ih _ (ra_step_disjoint sl cfg acc a h)

/-- A run of the random-access scheduler keeps both parts of the grid disjoint. -/
theorem ra_run_slot_disjoint (c : cell_sched)
    (h : grants_disjoint c.res_grid.dl ∧ grants_disjoint c.res_grid.ul) :
    grants_disjoint c.ra_run_slot.res_grid.dl ∧ grants_disjoint c.ra_run_slot.res_grid.ul := by
  unfold cell_sched.ra_run_slot
  cases hl : c.last_slot with
  | none => simpa [hl] using h
  | some sl =>
    simp only []
    exact foldl_ra_step_disjoint sl _ _ (c.res_grid, []) h

/-- Applying an event does not touch the grid of a cell. -/
theorem apply_event_res_grid (c : cell_sched) (e : pending_event) :
    (c.apply_event e).res_grid = c.res_grid := by
  cases e <;> rfl

/-- Applying a list of events does not touch the grid of a cell. -/
theorem foldl_apply_event_res_grid (l : List pending_event) (c : cell_sched) :
    (l.foldl cell_sched.apply_event c).res_grid = c.res_grid := by
  induction l generalizing c with
  | nil => rfl
  | cons e l ih => rw [List.foldl_cons, ih, apply_event_res_grid]

/-- An accepted slot indication leaves the grid all-free. -/
theorem slot_indication_res_grid (sl : slot_point) (c c1 : cell_sched)
    (h : c.slot_indication sl = Except.ok c1) : c1.res_grid = resource_grid.free := by
  unfold cell_sched.slot_indication at h
  cases hl : c.last_slot with
  | none =>
    rw [hl] at h
    simp only [Except.ok.injEq] at h
    subst h
    rfl
  | some l0 =>
    rw [hl] at h
    by_cases hlt : sl ≤ l0
    · simp [hlt] at h
    · simp only [hlt, if_false, Except.ok.injEq] at h
      subst h
      rfl

/-- The cell the pipeline leaves at the addressed index when the cell accepts the
slot. -/
theorem slot_indication_cell_of_accept (sl : slot_point) (c : Nat)
    (s : sched cell_sched event_manager Unit) (cell cell1 : cell_sched)
    (hcell : s.cells[c]? = some cell) (hacc : cell.slot_indication sl = Except.ok cell1) :
    (sched.slot_indication collaborators sl c s).state.cells[c]? =
      some (((s.pending_events.queue.filter (pending_event.due sl c)).foldl
        cell_sched.apply_event cell1).ra_run_slot) := by
  have hc : c < s.cells.length := by
    rcases List.getElem?_eq_some.1 hcell with ⟨h, _⟩
    exact h
  rw [(slot_indication_of_accept sl c s cell cell1 hcell hacc).2.1]
  exact List.getElem?_set_self hc

/-- Submitting events for configured cells appends them to the queue, in order,
and changes nothing else. -/
theorem state_after_calls_submit (es : List pending_event)
    (s : sched cell_sched event_manager Unit)
    (hes : ∀ e ∈ es, e.cell_index < s.cells.length) :
    state_after_calls s (es.map facade_call.submit) =
      { s with pending_events :=
          { s.pending_events with queue := s.pending_events.queue ++ es } } := by
  induction es generalizing s with
  | nil =>
    show s = _
    simp
  | cons e es ih =>
    show state_after_calls ((facade_call.submit e).state_after s) (es.map facade_call.submit) = _
    have he : e.cell_index < s.cells.length := hes e (List.mem_cons_self _ _)
    have hstep : (facade_call.submit e).state_after s =
        { s with pending_events :=
            { s.pending_events with queue := s.pending_events.queue ++ [e] } } := by
      cases e with
      | cell_configuration msg => rfl
      | rach_indication msg =>
        show (sched.handle_rach_indication collaborators msg s).state = _
        have hh : collaborators.events_handle_rach msg s.cells s.pending_events
            = Except.ok (s.pending_events.handle (pending_event.rach_indication msg)) := by
          show event_manager.handle_rach msg s.cells s.pending_events = _
          unfold event_manager.handle_rach
          exact if_pos he
        unfold sched.handle_rach_indication
        rw [hh]
        rfl
    rw [hstep, ih]
    · simp
    · intro x hx
      exact hes x (List.mem_cons_of_mem _ hx)

/-- Applying an event records it as applied. -/
theorem apply_event_applied (c : cell_sched) (e : pending_event) :
    (c.apply_event e).applied = c.applied ++ [e] := by
  cases e <;> rfl

/-- Applying a list of events records them as applied, in the order of the list. -/
theorem foldl_apply_event_applied (l : List pending_event) (c : cell_sched) :
    (l.foldl cell_sched.apply_event c).applied = c.applied ++ l := by
  induction l generalizing c with
  | nil => simp
  | cons e l ih => rw [List.foldl_cons, ih, apply_event_applied]; simp

/-- The random-access scheduler does not touch the record of applied events. -/
theorem ra_run_slot_applied (c : cell_sched) : c.ra_run_slot.applied = c.applied := by
  unfold cell_sched.ra_run_slot
  cases h : c.last_slot with
  | none => simp [h]
  | some sl => simp

/-- An accepted slot indication does not touch the record of applied events. -/
theorem slot_indication_applied (sl : slot_point) (c c1 : cell_sched)
    (h : c.slot_indication sl = Except.ok c1) : c1.applied = c.applied := by
  unfold cell_sched.slot_indication at h
  cases hl : c.last_slot with
  | none =>
    rw [hl] at h
    simp only [Except.ok.injEq] at h
    subst h
    rfl
  | some l0 =>
    rw [hl] at h
    by_cases hlt : sl ≤ l0
    · simp [hlt] at h
    · simp only [hlt, if_false, Except.ok.injEq] at h
      subst h
      rfl

/-- Attempts settled up to a slot are settled up to every earlier slot. -/
theorem ra_settled_mono (c : cell_sched) (l bound : slot_point) (h : c.ra_settled l)
    (hb : bound ≤ l) : c.ra_settled bound :=
  fun a ha hle => h a ha (lt_of_lt_of_le hle hb)

end spec_model

section
variable {Slot Cell Events UeDb CfgMsg RachMsg DlRes UlRes : Type}

/-- After an accepted slot indication `get_dl_sched` returns the downlink result of
the cell found at the index. -/
theorem sched.get_dl_sched_result_of_ok
    (d : sched_collaborators Slot Cell Events UeDb CfgMsg RachMsg DlRes UlRes)
    (sl : Slot) (c : Nat) (s : sched Cell Events UeDb) (cell : Cell)
    (hok : (sched.slot_indication d sl c s).result = outcome.ok ())
    (hcell : (sched.slot_indication d sl c s).state.cells[c]? = some cell) :
    (sched.get_dl_sched d sl c s).result = outcome.ok (d.cell_get_dl_sched sl cell) := by
  unfold sched.get_dl_sched
  simp only [hok, hcell]

/-- At an index inside the cell list `get_ul_sched` returns the uplink result of
the cell found there. -/
theorem sched.get_ul_sched_result_of_cell
    (d : sched_collaborators Slot Cell Events UeDb CfgMsg RachMsg DlRes UlRes)
    (sl : Slot) (c : Nat) (s : sched Cell Events UeDb) (cell : Cell)
    (hcell : s.cells[c]? = some cell) :
    (sched.get_ul_sched d sl c s).result = outcome.ok (d.cell_get_ul_sched sl cell) := by
  unfold sched.get_ul_sched
  simp only [hcell]

end

end srsgnb


/-! ## Claims on the grid, the event order and random access -/

namespace srsgnb

section claims_spec_model

/-- C11, on the grid of the specification: when the pipeline of `(sl, c)`
executes, the downlink result and the uplink result of the cell for `sl` are
returned and no two grants of either overlap in both time and frequency; every
allocation, downlink or uplink, whose region overlaps an existing commitment of
the grid fails and leaves the grid as it was; and every allocation, failed or
not, leaves a grid without overlap if it found one. -/
theorem pipeline_grants_do_not_overlap
    (s : sched spec_model.cell_sched spec_model.event_manager Unit) (sl : spec_model.slot_point)
    (c : Nat)
    (hrun : (sched.slot_indication spec_model.collaborators sl c s).result = outcome.ok ()) :
    (∃ dl ul,
      (sched.get_dl_sched spec_model.collaborators sl c s).result = outcome.ok (some dl) ∧
      spec_model.grants_disjoint dl ∧
      (sched.get_ul_sched spec_model.collaborators sl c
        (sched.get_dl_sched spec_model.collaborators sl c s).state).result
          = outcome.ok (some ul) ∧
      spec_model.grants_disjoint ul) ∧
    (∀ (g : spec_model.resource_grid) (gr : spec_model.grant),
      (∃ x ∈ g.dl, x.region.overlaps gr.region = true) → g.allocate_dl gr = (false, g)) ∧
    (∀ (g : spec_model.resource_grid) (gr : spec_model.grant),
      (∃ x ∈ g.ul, x.region.overlaps gr.region = true) → g.allocate_ul gr = (false, g)) ∧
    (∀ (g : spec_model.resource_grid) (gr : spec_model.grant),
      spec_model.grants_disjoint g.dl → spec_model.grants_disjoint (g.allocate_dl gr).2.dl) ∧
    (∀ (g : spec_model.resource_grid) (gr : spec_model.grant),
      spec_model.grants_disjoint g.ul → spec_model.grants_disjoint (g.allocate_ul gr).2.ul) := by
  refine ⟨?_, spec_model.allocate_dl_overlap, spec_model.allocate_ul_overlap,
    fun g gr h => (spec_model.allocate_dl_disjoint g gr h).1,
    fun g gr h => (spec_model.allocate_ul_disjoint g gr h).1⟩
  rcases spec_model.slot_indication_cells sl c s with ⟨_, hf⟩ | ⟨cell, cell1, hcell, hacc, _, _⟩
  · rw [hrun] at hf
    cases hf
  have hfin := spec_model.slot_indication_cell_of_accept sl c s cell cell1 hcell hacc
  have hlast : (((s.pending_events.queue.filter (spec_model.pending_event.due sl c)).foldl
      spec_model.cell_sched.apply_event cell1).ra_run_slot).last_slot = some sl := by
    rw [spec_model.ra_run_slot_last_slot, spec_model.foldl_apply_event_last_slot]
    exact (spec_model.slot_indication_ok sl cell cell1 hacc).1
  have hdis := spec_model.ra_run_slot_disjoint
    ((s.pending_events.queue.filter (spec_model.pending_event.due sl c)).foldl
      spec_model.cell_sched.apply_event cell1)
    (by
      rw [spec_model.foldl_apply_event_res_grid,
        spec_model.slot_indication_res_grid sl cell cell1 hacc]
      exact ⟨List.Pairwise.nil, List.Pairwise.nil⟩)
  refine ⟨_, _, ?_, hdis.1, ?_, hdis.2⟩
  · rw [sched.get_dl_sched_result_of_ok spec_model.collaborators sl c s _ hrun hfin]
    show outcome.ok (spec_model.cell_sched.get_dl_sched sl _) = _
    unfold spec_model.cell_sched.get_dl_sched
    rw [if_pos hlast]
  · rw [sched.get_dl_sched_state]
    rw [sched.get_ul_sched_result_of_cell spec_model.collaborators sl c _ _ hfin]
    show outcome.ok (spec_model.cell_sched.get_ul_sched sl _) = _
    unfold spec_model.cell_sched.get_ul_sched
    rw [if_pos hlast]

/-- Witness for C11: on a cell with three candidate response regions and two
follow-up regions, three attempts detected in slot 100 and two detected in slot
101 compete in slot 102.  The downlink result of slot 102 holds two response
grants and the uplink result two follow-up grants, in different regions. -/
theorem pipeline_grants_do_not_overlap_witness :
    (sched.slot_indication spec_model.collaborators 102 0
        (spec_model.state_after_calls spec_model.wide_cell_sched
          [spec_model.facade_call.handle_rach_indication ⟨0, 100, 5⟩,
           spec_model.facade_call.handle_rach_indication ⟨0, 100, 6⟩,
           spec_model.facade_call.handle_rach_indication ⟨0, 100, 7⟩,
           spec_model.facade_call.get_dl_sched 101 0,
           spec_model.facade_call.handle_rach_indication ⟨0, 101, 8⟩,
           spec_model.facade_call.handle_rach_indication ⟨0, 101, 9⟩])).result
      = outcome.ok () ∧
    (sched.get_dl_sched spec_model.collaborators 102 0
        (spec_model.state_after_calls spec_model.wide_cell_sched
          [spec_model.facade_call.handle_rach_indication ⟨0, 100, 5⟩,
           spec_model.facade_call.handle_rach_indication ⟨0, 100, 6⟩,
           spec_model.facade_call.handle_rach_indication ⟨0, 100, 7⟩,
           spec_model.facade_call.get_dl_sched 101 0,
           spec_model.facade_call.handle_rach_indication ⟨0, 101, 8⟩,
           spec_model.facade_call.handle_rach_indication ⟨0, 101, 9⟩])).result
      = outcome.ok (some [{ owner := 7, region := ⟨0, 1, 0, 4⟩ },
                          { owner := 8, region := ⟨0, 1, 4, 4⟩ }]) ∧
    (sched.get_ul_sched spec_model.collaborators 102 0
        (sched.get_dl_sched spec_model.collaborators 102 0
          (spec_model.state_after_calls spec_model.wide_cell_sched
            [spec_model.facade_call.handle_rach_indication ⟨0, 100, 5⟩,
             spec_model.facade_call.handle_rach_indication ⟨0, 100, 6⟩,
             spec_model.facade_call.handle_rach_indication ⟨0, 100, 7⟩,
             spec_model.facade_call.get_dl_sched 101 0,
             spec_model.facade_call.handle_rach_indication ⟨0, 101, 8⟩,
             spec_model.facade_call.handle_rach_indication ⟨0, 101, 9⟩])).state).result
      = outcome.ok (some [{ owner := 5, region := ⟨2, 1, 0, 2⟩ },
                          { owner := 6, region := ⟨2, 1, 2, 2⟩ }]) ∧
    (∃ dl ul,
      (sched.get_dl_sched spec_model.collaborators 102 0
        (spec_model.state_after_calls spec_model.wide_cell_sched
          [spec_model.facade_call.handle_rach_indication ⟨0, 100, 5⟩,
           spec_model.facade_call.handle_rach_indication ⟨0, 100, 6⟩,
           spec_model.facade_call.handle_rach_indication ⟨0, 100, 7⟩,
           spec_model.facade_call.get_dl_sched 101 0,
           spec_model.facade_call.handle_rach_indication ⟨0, 101, 8⟩,
           spec_model.facade_call.handle_rach_indication ⟨0, 101, 9⟩])).result
        = outcome.ok (some dl) ∧
      spec_model.grants_disjoint dl ∧
      (sched.get_ul_sched spec_model.collaborators 102 0
        (sched.get_dl_sched spec_model.collaborators 102 0
          (spec_model.state_after_calls spec_model.wide_cell_sched
            [spec_model.facade_call.handle_rach_indication ⟨0, 100, 5⟩,
             spec_model.facade_call.handle_rach_indication ⟨0, 100, 6⟩,
             spec_model.facade_call.handle_rach_indication ⟨0, 100, 7⟩,
             spec_model.facade_call.get_dl_sched 101 0,
             spec_model.facade_call.handle_rach_indication ⟨0, 101, 8⟩,
             spec_model.facade_call.handle_rach_indication ⟨0, 101, 9⟩])).state).result
          = outcome.ok (some ul) ∧
      spec_model.grants_disjoint ul) :=
  ⟨rfl, rfl, rfl,
   (pipeline_grants_do_not_overlap
      (spec_model.state_after_calls spec_model.wide_cell_sched
        [spec_model.facade_call.handle_rach_indication ⟨0, 100, 5⟩,
         spec_model.facade_call.handle_rach_indication ⟨0, 100, 6⟩,
         spec_model.facade_call.handle_rach_indication ⟨0, 100, 7⟩,
         spec_model.facade_call.get_dl_sched 101 0,
         spec_model.facade_call.handle_rach_indication ⟨0, 101, 8⟩,
         spec_model.facade_call.handle_rach_indication ⟨0, 101, 9⟩])
      102 0 rfl).1⟩

/-- C12, on the queue of the specification: events `e1, ..., en` submitted for a
cell through the entry points are appended to the queue in that order, and the
pipeline that drains them applies them to the reset cell in exactly the
submission order, after the events that were queued before them: the cell the
pipeline leaves is the reset cell with the events folded over it first to last,
and its record of applied events has grown by the earlier events followed by
`e1, ..., en`.  The drained events have left the queue. -/
theorem pipeline_applies_events_in_submission_order
    (s : sched spec_model.cell_sched spec_model.event_manager Unit) (sl : spec_model.slot_point)
    (c : Nat) (es : List spec_model.pending_event) (cell cell1 : spec_model.cell_sched)
    (hcell : s.cells[c]? = some cell) (hacc : cell.slot_indication sl = Except.ok cell1)
    (hdue : ∀ e ∈ es, e.due sl c = true) :
    (spec_model.state_after_calls s (es.map spec_model.facade_call.submit)).pending_events.queue
      = s.pending_events.queue ++ es ∧
    (sched.slot_indication spec_model.collaborators sl c
        (spec_model.state_after_calls s (es.map spec_model.facade_call.submit))).result
      = outcome.ok () ∧
    (sched.slot_indication spec_model.collaborators sl c
        (spec_model.state_after_calls s (es.map spec_model.facade_call.submit))).state.cells[c]?
      = some (spec_model.cell_sched.ra_run_slot
          (es.foldl spec_model.cell_sched.apply_event
            ((s.pending_events.queue.filter (spec_model.pending_event.due sl c)).foldl
              spec_model.cell_sched.apply_event cell1))) ∧
    (∃ final,
      (sched.slot_indication spec_model.collaborators sl c
        (spec_model.state_after_calls s
          (es.map spec_model.facade_call.submit))).state.cells[c]? = some final ∧
      final.applied = cell.applied
        ++ s.pending_events.queue.filter (spec_model.pending_event.due sl c) ++ es) ∧
    (∀ e ∈ es, e ∉ (sched.slot_indication spec_model.collaborators sl c
        (spec_model.state_after_calls s
          (es.map spec_model.facade_call.submit))).state.pending_events.queue) := by
  have hc : c < s.cells.length := (List.getElem?_eq_some.1 hcell).1
  have hes : ∀ e ∈ es, e.cell_index < s.cells.length := by
    intro e he
    have h1 := hdue e he
    unfold spec_model.pending_event.due at h1
    simp only [Bool.and_eq_true, beq_iff_eq] at h1
    rw [h1.1]
    exact hc
  have hsub := spec_model.state_after_calls_submit es s hes
  have hcell2 : (spec_model.state_after_calls s
      (es.map spec_model.facade_call.submit)).cells[c]? = some cell := by
    rw [hsub]; exact hcell
  have hall := spec_model.slot_indication_of_accept sl c _ cell cell1 hcell2 hacc
  have hfin := spec_model.slot_indication_cell_of_accept sl c _ cell cell1 hcell2 hacc
  have hq : (spec_model.state_after_calls s
      (es.map spec_model.facade_call.submit)).pending_events.queue
        = s.pending_events.queue ++ es := by
    rw [hsub]
  have hfin2 : (sched.slot_indication spec_model.collaborators sl c
        (spec_model.state_after_calls s (es.map spec_model.facade_call.submit))).state.cells[c]?
      = some (spec_model.cell_sched.ra_run_slot
          (es.foldl spec_model.cell_sched.apply_event
            ((s.pending_events.queue.filter (spec_model.pending_event.due sl c)).foldl
              spec_model.cell_sched.apply_event cell1))) := by
    rw [hfin, hq, List.filter_append, List.foldl_append,
      List.filter_eq_self.2 (fun e he => hdue e he)]
  refine ⟨hq, hall.1, hfin2, ⟨_, hfin2, ?_⟩, ?_⟩
  · rw [spec_model.ra_run_slot_applied, spec_model.foldl_apply_event_applied,
      spec_model.foldl_apply_event_applied,
      spec_model.slot_indication_applied sl cell cell1 hacc]
  · intro e he hmem
    rw [hall.2.2, List.mem_filter] at hmem
    have h1 := hdue e he
    simp [h1] at hmem

/-- Witness for C12: two indications detected in the same slot, with a
configuration request between them, are submitted for cell 0 and drained in slot
101.  The record of applied events is the submission order, and the single
response region of the slot goes to the attempt submitted first. -/
theorem pipeline_applies_events_in_submission_order_witness :
    spec_model.one_cell_sched.cells[0]? = some spec_model.fresh_cell ∧
    spec_model.fresh_cell.slot_indication 101
      = Except.ok { spec_model.fresh_cell with last_slot := some 101 } ∧
    ((sched.slot_indication spec_model.collaborators 101 0
        (spec_model.state_after_calls spec_model.one_cell_sched
          ([spec_model.pending_event.rach_indication ⟨0, 100, 5⟩,
            spec_model.pending_event.cell_configuration ⟨0⟩,
            spec_model.pending_event.rach_indication ⟨0, 100, 6⟩].map
              spec_model.facade_call.submit))).state.cells.map
        (fun cell => (cell.applied,
          cell.ra_sch.attempts.map (fun a => (a.preamble_id, a.state)))))
      = [([spec_model.pending_event.rach_indication ⟨0, 100, 5⟩,
           spec_model.pending_event.cell_configuration ⟨0⟩,
           spec_model.pending_event.rach_indication ⟨0, 100, 6⟩],
          [(5, spec_model.ra_state.RESPONSE_SCHEDULED), (6, spec_model.ra_state.DETECTED)])] ∧
    (∃ final,
      (sched.slot_indication spec_model.collaborators 101 0
        (spec_model.state_after_calls spec_model.one_cell_sched
          ([spec_model.pending_event.rach_indication ⟨0, 100, 5⟩,
            spec_model.pending_event.cell_configuration ⟨0⟩,
            spec_model.pending_event.rach_indication ⟨0, 100, 6⟩].map
              spec_model.facade_call.submit))).state.cells[0]? = some final ∧
      final.applied = spec_model.fresh_cell.applied
        ++ spec_model.one_cell_sched.pending_events.queue.filter
            (spec_model.pending_event.due 101 0)
        ++ [spec_model.pending_event.rach_indication ⟨0, 100, 5⟩,
            spec_model.pending_event.cell_configuration ⟨0⟩,
            spec_model.pending_event.rach_indication ⟨0, 100, 6⟩]) :=
  ⟨rfl, rfl, rfl,
   (pipeline_applies_events_in_submission_order spec_model.one_cell_sched 101 0
      [spec_model.pending_event.rach_indication ⟨0, 100, 5⟩,
       spec_model.pending_event.cell_configuration ⟨0⟩,
       spec_model.pending_event.rach_indication ⟨0, 100, 6⟩]
      spec_model.fresh_cell { spec_model.fresh_cell with last_slot := some 101 } rfl rfl
      (by decide)).2.2.2.1⟩

end claims_spec_model

end srsgnb

/-! ## Strong types -/

namespace srsgnb

/-- C20 fails on the code: with a 32-bit underlying type, `2 * s` for the strong
value `s` of value 3 has value 5 (the sum), not `2 * 3 = 6`, whereas `s * 2` has
value 6; so the product with the underlying type on the left is not the
product of the values and the two orders of the operands differ. -/
theorem mul_value_strong_adds :
    (strong_arithmetic_with_underlying_type.mul_value_strong 2
        ({ val := 3 } : strong_type 32)).value = 5 ∧
    (strong_arithmetic_with_underlying_type.mul_value_strong 2
        ({ val := 3 } : strong_type 32)).value ≠ (2 * 3) % 2 ^ 32 ∧
    (strong_arithmetic_with_underlying_type.mul_strong_value
        ({ val := 3 } : strong_type 32) 2).value = 6 ∧
    strong_arithmetic_with_underlying_type.mul_value_strong 2 ({ val := 3 } : strong_type 32)
      ≠ strong_arithmetic_with_underlying_type.mul_strong_value
          ({ val := 3 } : strong_type 32) 2 ∧
    strong_arithmetic_with_underlying_type.mul_value_strong 2 ({ val := 3 } : strong_type 32)
      = strong_arithmetic_with_underlying_type.add_value_strong 2
          ({ val := 3 } : strong_type 32) := by
  refine ⟨by decide, by decide, by decide, by decide, rfl⟩

end srsgnb

/-! ## Lime radio: range validation -/

namespace srsran

/-- Clipping moves a value by less than one exactly when the value is less than
one outside the range. -/
theorem abs_clip_sub_lt_one (range : Range) (freq : ℚ) (h : range.min ≤ range.max) :
    abs (clip freq range - freq) < 1 ↔ range.min - 1 < freq ∧ freq < range.max + 1 := by
  unfold clip
  rw [abs_lt]
  rcases le_total range.max freq with h1 | h1
  · rw [min_eq_left h1, max_eq_right h]
    constructor
    · intro h2; constructor <;> linarith [h2.1, h2.2]
    · intro h2; constructor <;> linarith [h2.1, h2.2]
  · rw [min_eq_right h1]
    rcases le_total range.min freq with h3 | h3
    · rw [max_eq_right h3]
      constructor
      · intro _; constructor <;> linarith
      · intro _; constructor <;> linarith
    · rw [max_eq_left h3]
      constructor
      · intro h2; constructor <;> linarith [h2.1, h2.2]
      · intro h2; constructor <;> linarith [h2.1, h2.2]

/-- C19: for a range with `min ≤ max`, `radio_lime_device_validate_freq_range`
returns true if and only if clipping the frequency to the range changes it by
less than 1, that is if and only if `min - 1 < f < max + 1`; every frequency
inside `[min, max]` is accepted. -/
theorem validate_freq_range_iff (range : Range) (freq : ℚ) (h : range.min ≤ range.max) :
    (radio_lime_device_validate_freq_range range freq = true ↔
      abs (clip freq range - freq) < 1) ∧
    (radio_lime_device_validate_freq_range range freq = true ↔
      range.min - 1 < freq ∧ freq < range.max + 1) ∧
    (range.min ≤ freq → freq ≤ range.max →
      radio_lime_device_validate_freq_range range freq = true) := by
  have h0 : radio_lime_device_validate_freq_range range freq = true ↔
      abs (clip freq range - freq) < 1 := by
    unfold radio_lime_device_validate_freq_range
    exact decide_eq_true_iff
  refine ⟨h0, h0.trans (abs_clip_sub_lt_one range freq h), ?_⟩
  intro h1 h2
  rw [h0.trans (abs_clip_sub_lt_one range freq h)]
  constructor <;> linarith

/-- Witness for C19: the range `[10, 20]` accepts 15 and 20.5 and rejects 21. -/
theorem validate_freq_range_iff_witness :
    ((10 : ℚ) ≤ 20) ∧
    radio_lime_device_validate_freq_range { min := 10, max := 20, step := 1 } 15 = true ∧
    (radio_lime_device_validate_freq_range { min := 10, max := 20, step := 1 } (41 / 2) = true ↔
      (10 : ℚ) - 1 < 41 / 2 ∧ (41 / 2 : ℚ) < 20 + 1) ∧
    (radio_lime_device_validate_freq_range { min := 10, max := 20, step := 1 } 21 = true ↔
      (10 : ℚ) - 1 < 21 ∧ (21 : ℚ) < 20 + 1) :=
  ⟨by norm_num,
   (validate_freq_range_iff { min := 10, max := 20, step := 1 } 15 (by norm_num)).2.2
     (by norm_num) (by norm_num),
   (validate_freq_range_iff { min := 10, max := 20, step := 1 } (41 / 2) (by norm_num)).2.1,
   (validate_freq_range_iff { min := 10, max := 20, step := 1 } 21 (by norm_num)).2.1⟩

/-- C18 fails on the code: in the range `[0, 20]` the gain 10.456 lies inside the
range, so clipping leaves it unchanged, and yet
`radio_lime_device_validate_gain_range` returns false: the clipped gain is
rounded (1046 hundredths) while the gain itself is truncated (1045 hundredths). -/
theorem validate_gain_range_rejects_inside :
    (0 : ℚ) ≤ 1307 / 125 ∧ (1307 / 125 : ℚ) ≤ 20 ∧
    abs (clip (1307 / 125) { min := 0, max := 20, step := 1 } - 1307 / 125) < 1 / 100 ∧
    std_round (clip (1307 / 125) { min := 0, max := 20, step := 1 } * 100) = 1046 ∧
    static_cast_uint64 (1307 / 125 * 100) = some 1045 ∧
    radio_lime_device_validate_gain_range { min := 0, max := 20, step := 1 } (1307 / 125)
      = some false := by
  have hclip : clip (1307 / 125) { min := 0, max := 20, step := 1 } = 1307 / 125 := by
    unfold clip
    norm_num
  have hround : std_round (clip (1307 / 125) { min := 0, max := 20, step := 1 } * 100)
      = 1046 := by
    rw [hclip]
    have hpos : (0 : ℚ) ≤ 1307 / 125 * 100 := by norm_num
    simp only [std_round, if_pos hpos]
    rw [Int.floor_eq_iff]
    norm_num
  have hfloor : ⌊(1307 / 125 * 100 : ℚ)⌋ = 1045 := by
    rw [Int.floor_eq_iff]
    norm_num
  have hcast : static_cast_uint64 (1307 / 125 * 100) = some 1045 := by
    have hpos : (0 : ℚ) ≤ 1307 / 125 * 100 := by norm_num
    simp only [static_cast_uint64, if_pos hpos, hfloor]
    rfl
  have hcast2 : static_cast_uint64 ((1046 : Int) : ℚ) = some 1046 := by
    have hpos : (0 : ℚ) ≤ ((1046 : Int) : ℚ) := by norm_num
    simp only [static_cast_uint64, if_pos hpos, Int.floor_intCast]
    rfl
  refine ⟨by norm_num, by norm_num, ?_, hround, hcast, ?_⟩
  · rw [hclip]; norm_num
  · unfold radio_lime_device_validate_gain_range
    rw [hround, hcast, hcast2]
    rfl

/-- The check of `radio_lime_device_validate_gain_range` also errs the other way:
in the range `[0, 9.996]` the gain 10.009 is clipped by 0.013, more than 0.01,
and yet it is accepted (both sides come to 1000 hundredths). -/
theorem validate_gain_range_accepts_outside :
    ¬ (abs (clip (10009 / 1000) { min := 0, max := 2499 / 250, step := 1 } - 10009 / 1000)
        < 1 / 100) ∧
    radio_lime_device_validate_gain_range { min := 0, max := 2499 / 250, step := 1 }
      (10009 / 1000) = some true := by
  have hclip : clip (10009 / 1000) { min := 0, max := 2499 / 250, step := 1 } = 2499 / 250 := by
    unfold clip
    norm_num
  have hround : std_round (clip (10009 / 1000) { min := 0, max := 2499 / 250, step := 1 } * 100)
      = 1000 := by
    rw [hclip]
    have hpos : (0 : ℚ) ≤ 2499 / 250 * 100 := by norm_num
    simp only [std_round, if_pos hpos]
    rw [Int.floor_eq_iff]
    norm_num
  have hfloor : ⌊(10009 / 1000 * 100 : ℚ)⌋ = 1000 := by
    rw [Int.floor_eq_iff]
    norm_num
  have hcast : static_cast_uint64 (10009 / 1000 * 100) = some 1000 := by
    have hpos : (0 : ℚ) ≤ 10009 / 1000 * 100 := by norm_num
    simp only [static_cast_uint64, if_pos hpos, hfloor]
    rfl
  have hcast2 : static_cast_uint64 ((1000 : Int) : ℚ) = some 1000 := by
    have hpos : (0 : ℚ) ≤ ((1000 : Int) : ℚ) := by norm_num
    simp only [static_cast_uint64, if_pos hpos, Int.floor_intCast]
    rfl
  refine ⟨?_, ?_⟩
  · rw [hclip]; norm_num [abs_lt]
  · unfold radio_lime_device_validate_gain_range
    rw [hround, hcast, hcast2]
    rfl

end srsran

/-! ## Lime radio: transmit stream state machine -/

namespace srsran

namespace radio_lime_tx_stream_fsm

/-- C15: `transmit_block` returns false if and only if the state is
`UNINITIALIZED`, `WAIT_STOP` or `STOPPED`, or the state is `WAIT_END_OF_BURST`
and the end-of-burst deadline has not expired (not
`wait_eob_timeout < time_spec`); in every other case it returns true. -/
theorem transmit_block_false_iff (add_timeout : Nat → Nat) (f : radio_lime_tx_stream_fsm)
    (metadata : StreamMeta) (time_spec : Nat) :
    ((transmit_block add_timeout f metadata time_spec).transmit = false ↔
      (f.state = states.UNINITIALIZED ∨ f.state = states.WAIT_STOP ∨ f.state = states.STOPPED ∨
        (f.state = states.WAIT_END_OF_BURST ∧ ¬ f.wait_eob_timeout < time_spec))) ∧
    ((transmit_block add_timeout f metadata time_spec).transmit = true ↔
      (f.state = states.START_BURST ∨ f.state = states.IN_BURST ∨
        f.state = states.END_OF_BURST ∨
        (f.state = states.WAIT_END_OF_BURST ∧ f.wait_eob_timeout < time_spec))) := by
  obtain ⟨st, t⟩ := f
  cases st
  case WAIT_END_OF_BURST =>
    by_cases h : t < time_spec
    · simp [transmit_block, h]
    · simp [transmit_block, h]
  all_goals simp [transmit_block]

/-- C16: `async_event_late_underflow` moves the state to `END_OF_BURST` if and only
if the state was `IN_BURST` (it then stores the deadline computed from
`time_spec`); for every other state, the state and the stored end-of-burst
deadline are unchanged. -/
theorem async_event_late_underflow_transition (add_timeout : Nat → Nat)
    (f : radio_lime_tx_stream_fsm) (time_spec : Nat) :
    (f.state = states.IN_BURST →
      async_event_late_underflow add_timeout f time_spec =
        { state := states.END_OF_BURST, wait_eob_timeout := add_timeout time_spec }) ∧
    (f.state ≠ states.IN_BURST → async_event_late_underflow add_timeout f time_spec = f) ∧
    (((async_event_late_underflow add_timeout f time_spec).state = states.END_OF_BURST ∧
        f.state ≠ states.END_OF_BURST) ↔ f.state = states.IN_BURST) := by
  obtain ⟨st, t⟩ := f
  cases st <;> simp [async_event_late_underflow]

/-- Witness for C16: in `IN_BURST` the event moves the state to `END_OF_BURST`; in
`START_BURST` nothing changes. -/
theorem async_event_late_underflow_transition_witness :
    async_event_late_underflow id { state := states.IN_BURST, wait_eob_timeout := 0 } 7 =
      { state := states.END_OF_BURST, wait_eob_timeout := 7 } ∧
    async_event_late_underflow id { state := states.START_BURST, wait_eob_timeout := 3 } 7 =
      { state := states.START_BURST, wait_eob_timeout := 3 } :=
  ⟨(async_event_late_underflow_transition id
      { state := states.IN_BURST, wait_eob_timeout := 0 } 7).1 rfl,
   (async_event_late_underflow_transition id
      { state := states.START_BURST, wait_eob_timeout := 3 } 7).2.1 (by decide)⟩

/-- C17: `async_event_end_of_burst_ack` moves the state to `START_BURST` if and
only if the state was `WAIT_END_OF_BURST`; for every other state the state
machine is unchanged. -/
theorem async_event_end_of_burst_ack_transition (f : radio_lime_tx_stream_fsm) :
    (f.state = states.WAIT_END_OF_BURST →
      async_event_end_of_burst_ack f = { f with state := states.START_BURST }) ∧
    (f.state ≠ states.WAIT_END_OF_BURST → async_event_end_of_burst_ack f = f) ∧
    (((async_event_end_of_burst_ack f).state = states.START_BURST ∧
        f.state ≠ states.START_BURST) ↔ f.state = states.WAIT_END_OF_BURST) := by
  obtain ⟨st, t⟩ := f
  cases st <;> simp [async_event_end_of_burst_ack]

/-- Witness for C17: in `WAIT_END_OF_BURST` the acknowledgement moves the state to
`START_BURST`; in `IN_BURST` nothing changes. -/
theorem async_event_end_of_burst_ack_transition_witness :
    async_event_end_of_burst_ack { state := states.WAIT_END_OF_BURST, wait_eob_timeout := 9 } =
      { state := states.START_BURST, wait_eob_timeout := 9 } ∧
    async_event_end_of_burst_ack { state := states.IN_BURST, wait_eob_timeout := 9 } =
      { state := states.IN_BURST, wait_eob_timeout := 9 } :=
  ⟨(async_event_end_of_burst_ack_transition
      { state := states.WAIT_END_OF_BURST, wait_eob_timeout := 9 }).1 rfl,
   (async_event_end_of_burst_ack_transition
      { state := states.IN_BURST, wait_eob_timeout := 9 }).2.1 (by decide)⟩

end radio_lime_tx_stream_fsm

/-! ## Task redispatcher -/

namespace task_redispatcher

end task_redispatcher

end srsran

/-! ## Task redispatcher: dispatch entry points -/

namespace srsran

namespace task_redispatcher

/-- C21, as stated, fails at the top of the counter: with `dispatch_fail_count`
holding `2 ^ 32 - 1`, a rejected `execute()` (and a rejected `defer()`) returns
false and leaves the counter at 0, which is not one more than it was. -/
theorem execute_rejected_wraps :
    (4294967295 : Nat) < 2 ^ 32 ∧
    (full_executor.execute 4294967295).accepted = false ∧
    execute full_executor 4294967295 = (false, 0) ∧
    defer full_executor 4294967295 = (false, 0) ∧
    (execute full_executor 4294967295).2 ≠ 4294967295 + 1 := by
  refine ⟨by decide, rfl, by decide, by decide, by decide⟩

/-- C21 (amended): `execute()` (respectively `defer()`) returns true if and only
if the executor accepted the dispatch; when the dispatch is rejected the
failed-dispatch counter increases by exactly one in `uint32_t` arithmetic
(modulo `2 ^ 32`: by one whenever it is below `2 ^ 32 - 1`, and from
`2 ^ 32 - 1` to 0), and when it is accepted the call itself leaves the counter
as the executor left it. -/
theorem execute_defer_dispatch (ex : executor) (count : Nat) :
    ((execute ex count).1 = true ↔ (ex.execute count).accepted = true) ∧
    ((defer ex count).1 = true ↔ (ex.defer count).accepted = true) ∧
    ((ex.execute count).accepted = false →
      (execute ex count).2 = ((ex.execute count).dispatch_fail_count + 1) % 2 ^ 32 ∧
      ((ex.execute count).dispatch_fail_count + 1 < 2 ^ 32 →
        (execute ex count).2 = (ex.execute count).dispatch_fail_count + 1)) ∧
    ((ex.defer count).accepted = false →
      (defer ex count).2 = ((ex.defer count).dispatch_fail_count + 1) % 2 ^ 32 ∧
      ((ex.defer count).dispatch_fail_count + 1 < 2 ^ 32 →
        (defer ex count).2 = (ex.defer count).dispatch_fail_count + 1)) ∧
    ((ex.execute count).accepted = true →
      (execute ex count).2 = (ex.execute count).dispatch_fail_count) ∧
    ((ex.defer count).accepted = true →
      (defer ex count).2 = (ex.defer count).dispatch_fail_count) := by
  have he : dispatch_task ex true count = ex.execute count := rfl
  have hd : dispatch_task ex false count = ex.defer count := rfl
  refine ⟨?_, ?_, ?_, ?_, ?_, ?_⟩
  · unfold execute
    rw [he]
    cases h : (ex.execute count).accepted <;> simp [h]
  · unfold defer
    rw [hd]
    cases h : (ex.defer count).accepted <;> simp [h]
  · intro h
    unfold execute
    rw [he]
    simp only [h, Bool.not_false, if_true]
    exact ⟨rfl, fun hlt => Nat.mod_eq_of_lt hlt⟩
  · intro h
    unfold defer
    rw [hd]
    simp only [h, Bool.not_false, if_true]
    exact ⟨rfl, fun hlt => Nat.mod_eq_of_lt hlt⟩
  · intro h
    unfold execute
    rw [he]
    simp [h]
  · intro h
    unfold defer
    rw [hd]
    simp [h]

/-- Witness for C21 (amended): a rejected dispatch with the counter at 3 returns
false and leaves the counter at 4; an accepted one returns true and leaves it
at 3. -/
theorem execute_defer_dispatch_witness :
    (full_executor.execute 3).accepted = false ∧
    (full_executor.execute 3).dispatch_fail_count + 1 < 2 ^ 32 ∧
    (execute full_executor 3).2 = (full_executor.execute 3).dispatch_fail_count + 1 ∧
    (queueing_executor.defer 3).accepted = true ∧
    (defer queueing_executor 3).2 = (queueing_executor.defer 3).dispatch_fail_count :=
  ⟨rfl, by decide,
   ((execute_defer_dispatch full_executor 3).2.2.1 rfl).2 (by decide),
   rfl,
   (execute_defer_dispatch queueing_executor 3).2.2.2.2.2 rfl⟩

end task_redispatcher

end srsran
